import Mathlib

/-!
Verification model of the dinit service state-transition engine
(`src/service.cc` of the mstuehn/dinit repository).

The embedding is executable: service records, dependency links and the
service-set queues are plain data, and every member function of
`service_record` / `service_set` appearing in `src/service.cc` is
translated into a Lean function transforming the whole set state.
Functions that live in `service.h` (not part of the provided sources) are
modelled from the specification and carry a doc comment saying so.

Side effects that are out of scope of the specification's core (logging,
listener notification, tty handovers) are omitted; they do not influence
the service state.
-/

set_option maxRecDepth 10000

namespace DinitModel

/-- `service_state_t` from the source: stopped, starting, started, stopping. -/
inductive service_state_t where
  | stopped
  | starting
  | started
  | stopping
deriving DecidableEq, Repr

/-- `stopped_reason_t` from the source (§7 of the spec). -/
inductive stopped_reason_t where
  | normal
  | depfailed
  | failed
  | execfailed
  | terminated
  | timedout
deriving DecidableEq, Repr

/-- `dependency_type` from the source: regular, milestone, waits-for, soft. -/
inductive dependency_type where
  | regular
  | milestone
  | waits_for
  | soft
deriving DecidableEq, Repr

/-- Service kind (§3 of the spec): internal records have no external process;
process/scripted records launch a child and stay `starting` until an exec or
exit event arrives. -/
inductive service_kind where
  | internal
  | process
  | scripted
deriving DecidableEq, Repr

/-- A service record: the per-service fields read and written by
`src/service.cc` (`service_state`, `desired_state`, `required_by`,
`start_explicit`, the propagation bits, the pin flags, ...).
`required_by` is a C++ `int`, hence `Int` here. -/
structure srec where
  name : String
  kind : service_kind
  service_state : service_state_t
  desired_state : service_state_t
  required_by : Int
  start_explicit : Bool
  restarting : Bool
  force_stop : Bool
  start_failed : Bool
  start_skipped : Bool
  prop_require : Bool
  prop_release : Bool
  prop_start : Bool
  prop_stop : Bool
  prop_failure : Bool
  waiting_for_deps : Bool
  waiting_for_console : Bool
  have_console : Bool
  pinned_started : Bool
  pinned_stopped : Bool
  auto_restart : Bool
  starts_on_console : Bool
  runs_on_console : Bool
  start_interruptible : Bool
  skippable : Bool
  stop_reason : stopped_reason_t
  start_on_completion : String
deriving DecidableEq, Repr

/-- A freshly constructed service record (all fields at their defaults, as in
the `service_record` constructor). -/
def initRec (nm : String) (k : service_kind) : srec where
  name := nm
  kind := k
  service_state := service_state_t.stopped
  desired_state := service_state_t.stopped
  required_by := 0
  start_explicit := false
  restarting := false
  force_stop := false
  start_failed := false
  start_skipped := false
  prop_require := false
  prop_release := false
  prop_start := false
  prop_stop := false
  prop_failure := false
  waiting_for_deps := false
  waiting_for_console := false
  have_console := false
  pinned_started := false
  pinned_stopped := false
  auto_restart := false
  starts_on_console := false
  runs_on_console := false
  start_interruptible := false
  skippable := false
  stop_reason := stopped_reason_t.normal
  start_on_completion := ""

instance : Inhabited srec := ⟨initRec "" service_kind.internal⟩

/-- A dependency link (edge). `frm` is the dependent, `to` the dependency;
`waiting_on` and `holding_acq` are the per-link bookkeeping flags. A link is
listed in `frm`'s `depends_on` and in `to`'s `dependents`. -/
structure dep_rec where
  frm : Nat
  toi : Nat
  dep_type : dependency_type
  waiting_on : Bool
  holding_acq : Bool
deriving DecidableEq, Repr

instance : Inhabited dep_rec :=
  ⟨{ frm := 0, toi := 0, dep_type := dependency_type.regular,
     waiting_on := false, holding_acq := false }⟩

/-- The whole service set: the records (indexed by position), the links, the
three work queues and the `active_services` counter. -/
structure sset where
  records : List srec
  links : List dep_rec
  prop_queue : List Nat
  transition_queue : List Nat
  console_queue : List Nat
  active_services : Int
deriving DecidableEq, Repr

/-- Read the record of service `i`. -/
def getRec (st : sset) (i : Nat) : srec := st.records.getD i default

/-- Replace the record of service `i`. -/
def setRec (st : sset) (i : Nat) (r : srec) : sset :=
  { st with records := st.records.set i r }

/-- Update the record of service `i`. -/
def updRec (st : sset) (i : Nat) (f : srec → srec) : sset :=
  setRec st i (f (getRec st i))

/-- Read link `j`. -/
def getLink (st : sset) (j : Nat) : dep_rec := st.links.getD j default

/-- Update link `j`. -/
def updLink (st : sset) (j : Nat) (f : dep_rec → dep_rec) : sset :=
  { st with links := st.links.set j (f (getLink st j)) }

/-- The indices of the links making up service `s`'s `dependents` list
(incoming edges), in creation order. -/
def dependent_idxs (st : sset) (s : Nat) : List Nat :=
  (List.range st.links.length).filter fun j => (getLink st j).toi = s

/-- The indices of the links making up service `s`'s `depends_on` list
(outgoing edges), in creation order. -/
def depends_on_idxs (st : sset) (s : Nat) : List Nat :=
  (List.range st.links.length).filter fun j => (getLink st j).frm = s

/-- `dep_type::is_hard()`. Modelled from the spec: the table in §3 marks
regular and milestone dependencies as the hard ones. -/
def dep_rec.is_hard (l : dep_rec) : Bool :=
  l.dep_type = dependency_type.regular ∨ l.dep_type = dependency_type.milestone

/-- `service_record::is_stopped()` (service.h accessor). Modelled from the
spec: a record is stopped when its `service_state` is stopped. -/
def srec.is_stopped (r : srec) : Bool :=
  r.service_state = service_state_t.stopped

/-- `service_set::add_prop_queue`. Modelled from the spec (§4.2, §9): pending
graph operations are queued; a record may be enqueued multiple times, its
per-record bit-flags de-duplicate the work. -/
def add_prop_queue (st : sset) (s : Nat) : sset :=
  { st with prop_queue := st.prop_queue ++ [s] }

/-- `service_set::add_transition_queue`. Modelled from the spec (§4.5). -/
def add_transition_queue (st : sset) (s : Nat) : sset :=
  { st with transition_queue := st.transition_queue ++ [s] }

/-- `service_set::service_active` (src/service.cc line 667). -/
def service_active (st : sset) (_s : Nat) : sset :=
  { st with active_services := st.active_services + 1 }

/-- `service_set::service_inactive` (src/service.cc line 672). -/
def service_inactive (st : sset) (_s : Nat) : sset :=
  { st with active_services := st.active_services - 1 }

/-- `service_set::append_console_queue`. Modelled from the spec (§4.4): a FIFO
queue of records requesting the console. -/
def append_console_queue (st : sset) (s : Nat) : sset :=
  { st with console_queue := st.console_queue ++ [s] }

/-- `service_set::pull_console_queue`. Modelled from the spec (§4.4). The
grant callback (`acquired_console` of the new head) is elided: no service in
this development uses the console, so the queue is always empty here. -/
def pull_console_queue (st : sset) : sset :=
  { st with console_queue := st.console_queue.drop 1 }

/-- `service_set::unqueue_console`. Modelled from the spec (§4.4): removes the
record from the console queue. -/
def unqueue_console (st : sset) (s : Nat) : sset :=
  { st with console_queue := st.console_queue.erase s }

/-- `service_record::queue_for_console` (src/service.cc line 650). -/
def queue_for_console (st : sset) (s : Nat) : sset :=
  append_console_queue (updRec st s fun r => { r with waiting_for_console := true }) s

/-- `service_record::release_console` (src/service.cc line 656). -/
def release_console (st : sset) (s : Nat) : sset :=
  pull_console_queue (updRec st s fun r => { r with have_console := false })

/-- `find_service` (src/service.cc line 24): first record with the given
name, as an index. -/
def find_service (st : sset) (nm : String) : Option Nat :=
  (List.range st.records.length).find? fun i => (getRec st i).name = nm

/-- `service_record::can_interrupt_start` for the base record. Modelled from
the spec (§5): starting can be interrupted iff `start_interruptible` is set or
the record is still waiting for dependencies or the console. -/
def can_interrupt_start (r : srec) : Bool :=
  r.start_interruptible ∨ r.waiting_for_deps ∨ r.waiting_for_console

/-- `service_record::can_interrupt_stop` for the base record. Modelled from
the spec (§4.1): a stop that is still waiting on dependents can be flipped
back to starting, unless the stop is forced. -/
def can_interrupt_stop (r : srec) : Bool :=
  r.waiting_for_deps ∧ ¬ r.force_stop

/-- `service_record::can_proceed_to_start` for the base record. Modelled from
the spec (§4.1): the hook re-checks the pinned state (the base record has no
restart-rate limit). -/
def can_proceed_to_start (r : srec) : Bool :=
  ¬ r.pinned_stopped

/-- `service_record::require` (src/service.cc line 133). -/
def require (st : sset) (s : Nat) : sset :=
  let old := (getRec st s).required_by
  let st := updRec st s fun r => { r with required_by := r.required_by + 1 }
  if old = 0 then
    let st := updRec st s fun r =>
      { r with prop_require := !r.prop_release, prop_release := false }
    let st := add_prop_queue st s
    if (getRec st s).service_state ≠ service_state_t.starting ∧
        (getRec st s).service_state ≠ service_state_t.started then
      updRec st s fun r => { r with prop_start := true }
    else st
  else st

/-- `service_record::forced_stop` (src/service.cc line 465). -/
def forced_stop (st : sset) (s : Nat) : sset :=
  if (getRec st s).service_state ≠ service_state_t.stopped then
    let st := updRec st s fun r => { r with force_stop := true }
    if ¬ (getRec st s).pinned_started then
      add_prop_queue (updRec st s fun r => { r with prop_stop := true }) s
    else st
  else st

/-- `service_record::dependent_stopped` (src/service.cc line 476). -/
def dependent_stopped (st : sset) (s : Nat) : sset :=
  if (getRec st s).service_state = service_state_t.stopping ∧
      (getRec st s).waiting_for_deps then
    add_transition_queue st s
  else st

/-- `service_record::dependency_started` (src/service.cc line 299). -/
def dependency_started (st : sset) (s : Nat) : sset :=
  if ((getRec st s).service_state = service_state_t.starting ∨
      (getRec st s).service_state = service_state_t.started) ∧
      (getRec st s).waiting_for_deps then
    add_transition_queue st s
  else st

/-- Effect of one iteration of `service_record::stop_dependents`
(src/service.cc lines 599-605) on the dependent `u`: propagate `force_stop`
if set on `s`, then set `u`'s `prop_stop` and enqueue it for propagation. -/
def stop_dependents_step (st : sset) (s u : Nat) : sset :=
  let st := if (getRec st s).force_stop then forced_stop st u else st
  add_prop_queue (updRec st u fun r => { r with prop_stop := true }) u

/-- Loop body of `service_record::stop_dependents` (src/service.cc line 586):
walk the dependents, record whether all (hard, holding) dependents are already
stopped, propagate `force_stop` and set `prop_stop` on each of them. -/
def stop_dependents_go (s : Nat) : List Nat → sset → Bool → sset × Bool
  | [], st, acc => (st, acc)
  | j :: js, st, acc =>
    let l := getLink st j
    if l.is_hard ∧ l.holding_acq then
      let acc := if ¬ (getRec st l.frm).is_stopped then false else acc
      stop_dependents_go s js (stop_dependents_step st s l.frm) acc
    else
      stop_dependents_go s js st acc

/-- `service_record::stop_dependents` (src/service.cc line 586). -/
def stop_dependents (st : sset) (s : Nat) : sset × Bool :=
  stop_dependents_go s (dependent_idxs st s) st true

/-- `service_record::interrupt_start` for the base record (src/service.cc
line 662): always succeeds, no state change. -/
def interrupt_start (st : sset) (_s : Nat) : sset × Bool :=
  (st, true)

/-- Tail of `service_record::do_stop` (src/service.cc lines 559-570): the part
below the starting/started dispatch. -/
def do_stop_tail (st : sset) (s : Nat) (all_deps_stopped : Bool) : sset :=
  if (getRec st s).pinned_started then st
  else
    let st :=
      if (getRec st s).required_by = 0 then
        add_prop_queue (updRec st s fun r => { r with prop_release := true }) s
      else st
    let st := updRec st s fun r =>
      { r with service_state := service_state_t.stopping, waiting_for_deps := true }
    if all_deps_stopped then add_transition_queue st s else st

/-- `service_record::do_stop` (src/service.cc line 517). -/
def do_stop (st : sset) (s : Nat) : sset :=
  let (st, all_deps_stopped) := stop_dependents st s
  let r := getRec st s
  if r.service_state ≠ service_state_t.started then
    if r.service_state = service_state_t.starting then
      if ¬ r.waiting_for_deps ∧ ¬ r.waiting_for_console then
        if ¬ can_interrupt_start r then st
        else
          let (st, ok) := interrupt_start st s
          if ¬ ok then st
          else do_stop_tail st s all_deps_stopped
      else
        let st :=
          if r.waiting_for_console then
            updRec (unqueue_console st s) s fun r => { r with waiting_for_console := false }
          else st
        do_stop_tail st s all_deps_stopped
    else st
  else do_stop_tail st s all_deps_stopped

/-- `service_record::release` (src/service.cc line 145); `issue_stop` defaults
to true at call sites written `release()`. -/
def release (st : sset) (s : Nat) (issue_stop : Bool) : sset :=
  let newCount := (getRec st s).required_by - 1
  let st := updRec st s fun r => { r with required_by := r.required_by - 1 }
  if newCount = 0 then
    let st := updRec st s fun r => { r with desired_state := service_state_t.stopped }
    let st :=
      if (getRec st s).service_state ≠ service_state_t.stopped ∧
          (getRec st s).service_state ≠ service_state_t.stopping then
        add_prop_queue (updRec st s fun r =>
          { r with prop_release := !r.prop_require, prop_require := false }) s
      else st
    if (getRec st s).service_state = service_state_t.stopped then
      service_inactive st s
    else if issue_stop then
      do_stop (updRec st s fun r => { r with stop_reason := stopped_reason_t.normal }) s
    else st
  else st

/-- Loop body of `service_record::release_dependencies` (src/service.cc
line 168). -/
def release_dependencies_go : List Nat → sset → sset
  | [], st => st
  | j :: js, st =>
    let l := getLink st j
    if l.holding_acq then
      let st := updLink st j fun l => { l with holding_acq := false }
      release_dependencies_go js (release st l.toi true)
    else
      release_dependencies_go js st

/-- `service_record::release_dependencies` (src/service.cc line 168). -/
def release_dependencies (st : sset) (s : Nat) : sset :=
  release_dependencies_go (depends_on_idxs st s) st

/-- Loop body of `service_record::start_check_dependencies` (src/service.cc
line 309). -/
def start_check_dependencies_go : List Nat → sset → Bool → sset × Bool
  | [], st, acc => (st, acc)
  | j :: js, st, acc =>
    let l := getLink st j
    if (getRec st l.toi).service_state ≠ service_state_t.started then
      let st :=
        if (getRec st l.toi).service_state ≠ service_state_t.starting then
          add_prop_queue (updRec st l.toi fun r => { r with prop_start := true }) l.toi
        else st
      let st := updLink st j fun l => { l with waiting_on := true }
      start_check_dependencies_go js st false
    else
      start_check_dependencies_go js st acc

/-- `service_record::start_check_dependencies` (src/service.cc line 309). -/
def start_check_dependencies (st : sset) (s : Nat) : sset × Bool :=
  start_check_dependencies_go (depends_on_idxs st s) st true

/-- `service_record::check_deps_started` (src/service.cc line 328): no
outgoing link is still being waited on. -/
def check_deps_started (st : sset) (s : Nat) : Bool :=
  (depends_on_idxs st s).all fun j => ¬ (getLink st j).waiting_on

/-- `service_record::start` (src/service.cc line 181). -/
def start (st : sset) (s : Nat) (activate : Bool) : sset :=
  let st :=
    if activate ∧ ¬ (getRec st s).start_explicit then
      updRec (require st s) s fun r => { r with start_explicit := true }
    else st
  let r := getRec st s
  let was_active := r.service_state ≠ service_state_t.stopped ∨
      r.desired_state ≠ service_state_t.stopped
  let st := updRec st s fun r => { r with desired_state := service_state_t.started }
  let proceed : sset → sset := fun st =>
    let st := updRec st s fun r =>
      { r with start_failed := false, start_skipped := false,
               service_state := service_state_t.starting, waiting_for_deps := true }
    let (st, all) := start_check_dependencies st s
    if all then add_transition_queue st s else st
  if r.service_state ≠ service_state_t.stopped then
    if r.service_state ≠ service_state_t.stopping then st
    else if ¬ can_interrupt_stop (getRec st s) then
      updRec st s fun r => { r with restarting := true }
    else
      proceed st
  else
    let st := if ¬ was_active then service_active st s else st
    proceed st

/-- Soft-dependents loop of `service_record::stopped` (src/service.cc
lines 61-77): break waits-for/soft dependency links of dependents, releasing
this (the stopping) service for each broken acquisition. -/
def stopped_softdeps_go (s : Nat) : List Nat → sset → sset
  | [], st => st
  | j :: js, st =>
    let l := getLink st j
    if ¬ l.is_hard then
      let st :=
        if l.waiting_on then
          dependency_started (updLink st j fun l => { l with waiting_on := false }) l.frm
        else st
      let st :=
        if (getLink st j).holding_acq then
          release (updLink st j fun l => { l with holding_acq := false }) s false
        else st
      stopped_softdeps_go s js st
    else
      stopped_softdeps_go s js st

/-- Dependencies loop of `service_record::stopped` (src/service.cc
lines 79-82): signal each dependency that a dependent has stopped. -/
def stopped_signaldeps_go : List Nat → sset → sset
  | [], st => st
  | j :: js, st =>
    stopped_signaldeps_go js (dependent_stopped st (getLink st j).toi)

/-- `service_record::stopped` (src/service.cc line 44). -/
def stopped (st : sset) (s : Nat) : sset :=
  let st := if (getRec st s).have_console then release_console st s else st
  let st := updRec st s fun r => { r with force_stop := false }
  let st := updRec st s fun r => { r with restarting := r.restarting || r.auto_restart }
  let will_restart := (getRec st s).restarting ∧ (getRec st s).required_by > 0
  let st := updRec st s fun r => { r with restarting := false }
  let st := if ¬ will_restart then stopped_softdeps_go s (dependent_idxs st s) st else st
  let st := stopped_signaldeps_go (depends_on_idxs st s) st
  let st := updRec st s fun r => { r with service_state := service_state_t.stopped }
  let st :=
    if will_restart then
      start (updRec st s fun r => { r with restarting := true }) s false
    else
      let st :=
        if (getRec st s).start_explicit then
          release (updRec st s fun r => { r with start_explicit := false }) s true
        else if (getRec st s).required_by = 0 then
          let st := updRec st s fun r =>
            { r with prop_release := !r.prop_require, prop_require := false }
          service_inactive (add_prop_queue st s) s
        else st
      st
  if ¬ (getRec st s).start_failed then
    if ¬ will_restart ∧ (getRec st s).start_on_completion ≠ "" then
      match find_service st (getRec st s).start_on_completion with
      | some c => start st c true
      | none => st
    else st
  else st

/-- `service_record::stop` (src/service.cc line 483). -/
def stop (st : sset) (s : Nat) (bring_down : Bool) : sset :=
  let st :=
    if (getRec st s).start_explicit then
      updRec st s fun r => { r with start_explicit := false, required_by := r.required_by - 1 }
    else st
  let bring_down := if (getRec st s).required_by = 0 then true else bring_down
  if bring_down ∧ (getRec st s).service_state ≠ service_state_t.stopped ∧
      (getRec st s).service_state ≠ service_state_t.stopping then
    do_stop (updRec st s fun r => { r with stop_reason := stopped_reason_t.normal }) s
  else st

/-- `service_record::restart` (src/service.cc line 502). Returns the new state
and whether the restart was accepted. -/
def restart (st : sset) (s : Nat) : sset × Bool :=
  if (getRec st s).service_state = service_state_t.started then
    let st := updRec st s fun r =>
      { r with restarting := true, stop_reason := stopped_reason_t.normal }
    (do_stop st s, true)
  else
    (st, false)

/-- Dependents loop of `service_record::failed_to_start` (src/service.cc
lines 423-446): propagate the failure to hard dependents that are starting,
break waits on soft dependents, and release every held acquisition of this
service. -/
def failed_to_start_go (s : Nat) : List Nat → sset → sset
  | [], st => st
  | j :: js, st =>
    let l := getLink st j
    let st :=
      if l.is_hard then
        if (getRec st l.frm).service_state = service_state_t.starting then
          add_prop_queue (updRec st l.frm fun r => { r with prop_failure := true }) l.frm
        else st
      else
        if l.waiting_on then
          dependency_started (updLink st j fun l => { l with waiting_on := false }) l.frm
        else st
    let st :=
      if (getLink st j).holding_acq then
        release (updLink st j fun l => { l with holding_acq := false }) s false
      else st
    failed_to_start_go s js st

/-- `service_record::failed_to_start` (src/service.cc line 410). The
`depfailed` parameter is unused in the body (callers set `stop_reason`
beforehand); `immediate_stop` defaults to true. -/
def failed_to_start (st : sset) (s : Nat) (_depfailed immediate_stop : Bool) : sset :=
  let st :=
    if (getRec st s).waiting_for_console then
      updRec (unqueue_console st s) s fun r => { r with waiting_for_console := false }
    else st
  let st :=
    if (getRec st s).start_explicit then
      release (updRec st s fun r => { r with start_explicit := false }) s false
    else st
  let st := failed_to_start_go s (dependent_idxs st s) st
  let st := updRec st s fun r => { r with start_failed := true }
  if immediate_stop then stopped st s else st

/-- `service_record::started` (src/service.cc line 378). The dependents loop
calls `dependency_started` on each dependent and then clears that link's
`waiting_on` bit. -/
def started_go : List Nat → sset → sset
  | [], st => st
  | j :: js, st =>
    let st := dependency_started st (getLink st j).frm
    let st := updLink st j fun l => { l with waiting_on := false }
    started_go js st

/-- `service_record::started` (src/service.cc line 378). -/
def started (st : sset) (s : Nat) : sset :=
  let st :=
    if (getRec st s).have_console ∧ ¬ (getRec st s).runs_on_console then
      release_console st s
    else st
  let st := updRec st s fun r => { r with service_state := service_state_t.started }
  if (getRec st s).force_stop ∨ (getRec st s).desired_state = service_state_t.stopped then
    do_stop st s
  else
    started_go (dependent_idxs st s) st

/-- `service_record::bring_up` (src/service.cc line 457) together with its
process/scripted overrides. For the base (internal) record there is no
process, so the service is started at once. For process and scripted records
the override launches the child and the record remains starting until an
exec/exit event arrives; modelled from the spec (§4.3). -/
def bring_up (st : sset) (s : Nat) : sset × Bool :=
  match (getRec st s).kind with
  | service_kind.internal => (started st s, true)
  | service_kind.process => (st, true)
  | service_kind.scripted => (st, true)

/-- `service_record::all_deps_started` (src/service.cc line 339). -/
def all_deps_started (st : sset) (s : Nat) : sset :=
  if (getRec st s).starts_on_console ∧ ¬ (getRec st s).have_console then
    queue_for_console st s
  else
    let st := updRec st s fun r => { r with waiting_for_deps := false }
    if ¬ can_proceed_to_start (getRec st s) then
      updRec st s fun r => { r with waiting_for_deps := true }
    else
      let (st, start_success) := bring_up st s
      let st := updRec st s fun r => { r with restarting := false }
      if ¬ start_success then failed_to_start st s false true else st

/-- `service_record::bring_down` (src/service.cc line 613). -/
def bring_down (st : sset) (s : Nat) : sset :=
  stopped (updRec st s fun r => { r with waiting_for_deps := false }) s

/-- `service_record::stop_check_dependents` (src/service.cc line 573): no
hard dependent still holds an acquisition. -/
def stop_check_dependents (st : sset) (s : Nat) : Bool :=
  (dependent_idxs st s).all fun j =>
    ¬ ((getLink st j).is_hard ∧ (getLink st j).holding_acq)

/-- `service_record::execute_transition` (src/service.cc line 255). -/
def execute_transition (st : sset) (s : Nat) : sset :=
  if (getRec st s).service_state = service_state_t.starting ∨
      ((getRec st s).service_state = service_state_t.started ∧ (getRec st s).restarting) then
    if check_deps_started st s then all_deps_started st s else st
  else if (getRec st s).service_state = service_state_t.stopping then
    if stop_check_dependents st s then
      let st := updRec st s fun r => { r with waiting_for_deps := false }
      let st :=
        if (getRec st s).start_explicit ∧ ¬ (getRec st s).auto_restart ∧
            ¬ (getRec st s).restarting then
          release (updRec st s fun r => { r with start_explicit := false }) s false
        else st
      bring_down st s
    else st
  else st

/-- `service_record::do_start` (src/service.cc line 280). -/
def do_start (st : sset) (s : Nat) : sset :=
  if (getRec st s).pinned_stopped then st
  else if (getRec st s).service_state ≠ service_state_t.starting then st
  else
    let st := updRec st s fun r =>
      { r with service_state := service_state_t.starting, waiting_for_deps := true }
    if check_deps_started st s then all_deps_started st s else st

/-- Require-dependencies loop of `service_record::do_propagation`
(src/service.cc lines 226-229): require each dependency and mark the link as
holding an acquisition. -/
def do_propagation_require_go : List Nat → sset → sset
  | [], st => st
  | j :: js, st =>
    let l := getLink st j
    let st := require st l.toi
    let st := updLink st j fun l => { l with holding_acq := true }
    do_propagation_require_go js st

/-- `service_record::do_propagation` (src/service.cc line 222). Each pending
bit is read from the current state in turn, exactly as the source does. -/
def do_propagation (st : sset) (s : Nat) : sset :=
  let st :=
    if (getRec st s).prop_require then
      let st := do_propagation_require_go (depends_on_idxs st s) st
      updRec st s fun r => { r with prop_require := false }
    else st
  let st :=
    if (getRec st s).prop_release then
      updRec (release_dependencies st s) s fun r => { r with prop_release := false }
    else st
  let st :=
    if (getRec st s).prop_failure then
      let st := updRec st s fun r =>
        { r with prop_failure := false, stop_reason := stopped_reason_t.depfailed }
      failed_to_start st s true true
    else st
  let st :=
    if (getRec st s).prop_start then
      start (updRec st s fun r => { r with prop_start := false }) s false
    else st
  let st :=
    if (getRec st s).prop_stop then
      do_stop (updRec st s fun r => { r with prop_stop := false }) s
    else st
  st

/-- `service_set::process_queues`. Modelled from the spec (§4.5, §5): drain
the propagation queue fully, then take transitions one at a time, looping
until both queues are empty. The recursion is bounded by a fuel parameter;
all states considered in this development drain well within the fuel used. -/
def process_queues : Nat → sset → sset
  | 0, st => st
  | fuel + 1, st =>
    match st.prop_queue with
    | p :: rest => process_queues fuel (do_propagation { st with prop_queue := rest } p)
    | [] =>
      match st.transition_queue with
      | t :: rest => process_queues fuel (execute_transition { st with transition_queue := rest } t)
      | [] => st

/-- A service set over the given records and links, with empty queues and no
active services, as after registration of freshly loaded records. -/
def mkSet (rs : List srec) (ls : List dep_rec) : sset where
  records := rs
  links := ls
  prop_queue := []
  transition_queue := []
  console_queue := []
  active_services := 0

/-- Exit of the child process of a scripted service while it is starting.
Modelled from the spec (§4.3): a normal (zero) exit means the start command
completed and the service is started; a non-zero exit is a start failure,
`stop_reason` becomes `failed` and `failed_to_start` runs. -/
def scripted_exit (st : sset) (s : Nat) (exit_code : Int) : sset :=
  if (getRec st s).service_state = service_state_t.starting then
    if exit_code = 0 then
      started st s
    else
      failed_to_start
        (updRec st s fun r => { r with stop_reason := stopped_reason_t.failed }) s false true
  else st

/-- Both work queues are empty: the fixed point reached after a
`process_queues` drain (quiescence, §2 of the spec). -/
def drained (st : sset) : Prop :=
  st.prop_queue = [] ∧ st.transition_queue = []

/-- The external service commands exercised in this development (§6 of the
spec): start — with or without activation —, stop, restart. -/
inductive command where
  | cstart (activate : Bool)
  | cstop (bring_down : Bool)
  | crestart
deriving DecidableEq, Repr

/-- Apply a command to service `i`. -/
def apply_command (st : sset) (i : Nat) : command → sset
  | command.cstart a => start st i a
  | command.cstop b => stop st i b
  | command.crestart => (restart st i).1

/-- One external command followed by a full queue drain: the event-loop
discipline of §5 of the spec, under which every command is followed by a
`process_queues` pass to quiescence. -/
def command_step (i : Nat) (c : command) (st : sset) : sset :=
  process_queues 200 (apply_command st i c)

/-- The number of records with `required_by > 0` (what the spec says
`active_services` counts). -/
def count_required (st : sset) : Int :=
  ((List.range st.records.length).filter fun i => (getRec st i).required_by > 0).length

instance (st : sset) : Decidable (drained st) := by
  unfold drained
  infer_instance

/-! ### Scenario configurations

Concrete service sets used to evaluate the state machine. `mkSet` builds a
set with empty queues; records are given by index. -/

/-- A single freshly loaded internal service. -/
def init1 : sset := mkSet [initRec "s0" service_kind.internal] []

/-- A fresh internal record with the two configuration flags that influence
the isolated start/stop round trip. -/
def plainRec (ar soc : Bool) : srec :=
  { initRec "s0" service_kind.internal with auto_restart := ar, starts_on_console := soc }

/-- An internal record that is up: state and desired state `started`. -/
def startedRec (nm : String) : srec :=
  { initRec nm service_kind.internal with
    service_state := service_state_t.started, desired_state := service_state_t.started }

/-- `start(true)`, `stop(true)`, `start(true)` on a single service, each
followed by a queue drain. -/
def c1_trace : sset :=
  command_step 0 (command.cstart true)
    (command_step 0 (command.cstop true)
      (command_step 0 (command.cstart true) init1))

/-- The isolated round trip of §8 of the spec: `start(activate=true)` then
`stop(bring_down=true)`, each followed by a queue drain. -/
def c3_run (ar soc : Bool) : sset :=
  command_step 0 (command.cstop true)
    (command_step 0 (command.cstart true) (mkSet [plainRec ar soc] []))

/-- The dependency chain `s3 → s2 → p` of §8 scenario 5: service 0 is the
scripted `p`, service 1 is `s2` (regular dependency on `p`), service 2 is
`s3` (regular dependency on `s2`). All initially stopped. -/
def chain_init : sset := mkSet
  [initRec "p" service_kind.scripted, initRec "s2" service_kind.internal,
   initRec "s3" service_kind.internal]
  [{ frm := 1, toi := 0, dep_type := dependency_type.regular,
     waiting_on := false, holding_acq := false },
   { frm := 2, toi := 1, dep_type := dependency_type.regular,
     waiting_on := false, holding_acq := false }]

/-- The chain after `start(s3, true)` and a queue drain: everything starting,
`p` waiting for its child. -/
def chain_mid : sset := command_step 2 (command.cstart true) chain_init

/-- The chain after `p`'s start command exits with status 1 and the queues
are drained. -/
def chain_fin : sset := process_queues 200 (scripted_exit chain_mid 0 1)

/-- A started, start-pinned service 0 with one started hard dependent
(service 1) holding an acquisition on it. -/
def cfgC2 : sset := mkSet
  [{ startedRec "p" with pinned_started := true, required_by := 1 },
   { startedRec "d" with start_explicit := true, required_by := 1 }]
  [{ frm := 1, toi := 0, dep_type := dependency_type.regular,
     waiting_on := false, holding_acq := true }]

/-- A started service 0 with `required_by == 0` (as arises after a stop of a
pinned-started service) that still holds an acquisition on its started
dependency, service 1. -/
def cfgC5x : sset := mkSet
  [startedRec "s", { startedRec "d" with required_by := 1 }]
  [{ frm := 0, toi := 1, dep_type := dependency_type.regular,
     waiting_on := false, holding_acq := true }]

/-- Result of `restart` on service 0 of `cfgC5x`, queues drained. -/
def c5x_res : sset := process_queues 200 (restart cfgC5x 0).1

/-- Explicitly started service 0 (`s`) holding an acquisition on its started
dependency 1 (`d`), with a started explicit hard dependent 2 (`t`); the
auto-restart flags of `s` and `t` are parameters. -/
def cfgC5 (ars art : Bool) : sset := mkSet
  [{ startedRec "s" with start_explicit := true, required_by := 2, auto_restart := ars },
   { startedRec "d" with required_by := 1 },
   { startedRec "t" with start_explicit := true, required_by := 1, auto_restart := art }]
  [{ frm := 0, toi := 1, dep_type := dependency_type.regular,
     waiting_on := false, holding_acq := true },
   { frm := 2, toi := 0, dep_type := dependency_type.regular,
     waiting_on := false, holding_acq := true }]

/-- Result of `restart` on `s` in `cfgC5`, queues drained. -/
def c5_res (ars art : Bool) : sset := process_queues 200 (restart (cfgC5 ars art) 0).1

/-- An isolated explicitly started service. -/
def cfgC5i (ars : Bool) : sset :=
  mkSet
    [{ startedRec "s" with
       start_explicit := true, required_by := 1, auto_restart := ars }]
    []

/-- Result of `restart` on the isolated service of `cfgC5i`, queues drained. -/
def c5i_res (ars : Bool) : sset := process_queues 200 (restart (cfgC5i ars) 0).1

/-- A starting scripted service 0 (`p`, explicitly started, holding an
acquisition on its started dependency 1) with a starting hard dependent 2
waiting on it: the generic mid-start picture before a start failure of `p`. -/
def cfgC8 : sset := mkSet
  [{ initRec "p" service_kind.scripted with
      service_state := service_state_t.starting,
      desired_state := service_state_t.started,
      start_explicit := true, required_by := 2 },
   { startedRec "q" with required_by := 1 },
   { initRec "s2" service_kind.internal with
      service_state := service_state_t.starting,
      desired_state := service_state_t.started, waiting_for_deps := true }]
  [{ frm := 0, toi := 1, dep_type := dependency_type.regular,
     waiting_on := false, holding_acq := true },
   { frm := 2, toi := 0, dep_type := dependency_type.regular,
     waiting_on := true, holding_acq := true }]

/-- `cfgC8` after `failed_to_start` of `p` (with immediate stop) and a queue
drain. -/
def c8_res : sset := process_queues 200 (failed_to_start cfgC8 0 false true)

/-- Both boolean values. -/
def bools : List Bool := [false, true]

/-- Single-record states covering every combination of `service_state`,
desired state, explicit activation (with the matching `required_by`),
auto-restart, both pins, `waiting_for_deps`, `force_stop` and `restarting` —
except the unreachable combination of a stopped record with `force_stop`
still set (`stopped()` clears the flag before entering the stopped state,
src/service.cc line 51, and `forced_stop` sets it only on non-stopped
services, line 467). -/
def c4_recs : List srec :=
  [service_state_t.stopped, service_state_t.starting, service_state_t.started,
   service_state_t.stopping].flatMap fun ss =>
  [service_state_t.stopped, service_state_t.started].flatMap fun ds =>
  bools.flatMap fun ex => bools.flatMap fun ar => bools.flatMap fun ps =>
  bools.flatMap fun pz => bools.flatMap fun wfd => bools.flatMap fun fs =>
  bools.map fun rst =>
    { initRec "s0" service_kind.internal with
      service_state := ss, desired_state := ds,
      required_by := if ex then 1 else 0, start_explicit := ex,
      auto_restart := ar, pinned_started := ps, pinned_stopped := pz,
      waiting_for_deps := wfd, force_stop := fs, restarting := rst }

/-- The single-service states of the `c4_recs` family. -/
def c4_singles : List sset :=
  (c4_recs.filter fun r =>
    ¬ (r.service_state = service_state_t.stopped ∧ r.force_stop)).map fun r =>
    mkSet [r] []

/-- A two-service set: service 1 has a regular dependency on service 0. -/
def init2 : sset := mkSet
  [initRec "d" service_kind.internal, initRec "s" service_kind.internal]
  [{ frm := 1, toi := 0, dep_type := dependency_type.regular,
     waiting_on := false, holding_acq := false }]

/-- States of the two-service set reached by assorted command sequences
(each command followed by a drain). -/
def c4_duos : List sset :=
  let p1 := command_step 1 (command.cstart true) init2
  let p2 := command_step 0 (command.cstart true) p1
  [init2, p1, p2,
   command_step 1 (command.cstop true) p1,
   command_step 0 (command.cstart true) init2,
   command_step 0 (command.cstart false) init2,
   command_step 0 (command.cstop true) p2,
   command_step 0 command.crestart p1,
   command_step 1 command.crestart p1]

/-- All states over which the double-start property is checked. -/
def c4_states : List sset := c4_singles ++ c4_duos

/-- Two `start(true)` calls on service `i`, drains in between, leave
`required_by` as after a single `start(true)`. -/
def start_twice_same (i : Nat) (st : sset) : Prop :=
  (getRec (command_step i (command.cstart true)
      (command_step i (command.cstart true) st)) i).required_by
    = (getRec (command_step i (command.cstart true) st) i).required_by

instance (i : Nat) (st : sset) : Decidable (start_twice_same i st) := by
  unfold start_twice_same
  infer_instance

/-- `stop(bring_down)` as the specification words it (§4.1): first, if
`start_explicit` is set, clear it and decrement `required_by` by exactly one;
then treat `bring_down` as true if `required_by` is now zero; finally, when
(so forced) `bring_down` holds and the state is neither stopped nor stopping,
set `stop_reason` to normal and initiate `do_stop`. To be compared with the
`stop` translated from the source. -/
def stop_per_spec (st : sset) (s : Nat) (bring_down : Bool) : sset :=
  let st1 :=
    if (getRec st s).start_explicit then
      updRec st s fun r => { r with start_explicit := false, required_by := r.required_by - 1 }
    else st
  if (bring_down ∨ (getRec st1 s).required_by = 0) ∧
      (getRec st1 s).service_state ≠ service_state_t.stopped ∧
      (getRec st1 s).service_state ≠ service_state_t.stopping then
    do_stop (updRec st1 s fun r => { r with stop_reason := stopped_reason_t.normal }) s
  else st1

/-- `prop_require` and `prop_release` of service `s` are not both set. -/
def flags_exclusive (st : sset) (s : Nat) : Prop :=
  ¬ ((getRec st s).prop_require = true ∧ (getRec st s).prop_release = true)

/-- The pending require/release propagation bits of service `s`, as a pair. -/
def prop_pair (st : sset) (s : Nat) : Bool × Bool :=
  ((getRec st s).prop_require, (getRec st s).prop_release)

/-- The record transformation performed by the tail of `start`
(src/service.cc lines 212-215). -/
def start_tail_upd (r : srec) : srec :=
  { r with start_failed := false, start_skipped := false,
           service_state := service_state_t.starting, waiting_for_deps := true }

/-- The tail of `start` (src/service.cc lines 212-219): enter starting, check
the dependencies, and queue self on the transition queue when they are all
started. -/
def proceed_result (stb : sset) (s : Nat) : sset :=
  if (start_check_dependencies (updRec stb s start_tail_upd) s).2 = true then
    add_transition_queue (start_check_dependencies (updRec stb s start_tail_upd) s).1 s
  else (start_check_dependencies (updRec stb s start_tail_upd) s).1

/-! ### Basic lemmas about the state accessors -/

theorem getRec_updRec_self {st : sset} {i : Nat} (f : srec → srec)
    (h : i < st.records.length) : getRec (updRec st i f) i = f (getRec st i) := by
  simp only [updRec, setRec, getRec, List.getD, List.get?_eq_getElem?]
  rw [List.getElem?_set_eq_of_lt _ h]
  rfl

theorem getRec_updRec_ne {st : sset} {i t : Nat} (f : srec → srec)
    (h : t ≠ i) : getRec (updRec st i f) t = getRec st t := by
  simp only [updRec, setRec, getRec, List.getD, List.get?_eq_getElem?]
  rw [List.getElem?_set_ne (by omega)]

theorem getRec_updRec_oob {st : sset} {i : Nat} (f : srec → srec)
    (h : st.records.length ≤ i) : getRec (updRec st i f) t = getRec st t := by
  simp only [updRec, setRec, getRec, List.getD, List.set_eq_of_length_le h]

theorem records_length_updRec (st : sset) (i : Nat) (f : srec → srec) :
    (updRec st i f).records.length = st.records.length := by
  simp [updRec, setRec]

theorem getLink_updLink_ne {st : sset} {j j' : Nat} (g : dep_rec → dep_rec)
    (h : j' ≠ j) : getLink (updLink st j g) j' = getLink st j' := by
  simp only [updLink, getLink, List.getD, List.get?_eq_getElem?]
  rw [List.getElem?_set_ne (by omega)]

theorem getLink_updLink_self {st : sset} {j : Nat} (g : dep_rec → dep_rec)
    (h : j < st.links.length) : getLink (updLink st j g) j = g (getLink st j) := by
  simp only [updLink, getLink, List.getD, List.get?_eq_getElem?]
  rw [List.getElem?_set_eq_of_lt _ h]
  rfl

theorem links_length_updLink (st : sset) (j : Nat) (g : dep_rec → dep_rec) :
    (updLink st j g).links.length = st.links.length := by
  simp [updLink]

theorem getLink_updLink_oob {st : sset} {j : Nat} (g : dep_rec → dep_rec)
    (h : st.links.length ≤ j) : getLink (updLink st j g) j' = getLink st j' := by
  simp only [updLink, getLink, List.getD, List.set_eq_of_length_le h]

@[simp] theorem getRec_add_prop_queue (st : sset) (q t : Nat) :
    getRec (add_prop_queue st q) t = getRec st t := rfl

@[simp] theorem getRec_add_transition_queue (st : sset) (q t : Nat) :
    getRec (add_transition_queue st q) t = getRec st t := rfl

@[simp] theorem getRec_service_active (st : sset) (q t : Nat) :
    getRec (service_active st q) t = getRec st t := rfl

@[simp] theorem getRec_service_inactive (st : sset) (q t : Nat) :
    getRec (service_inactive st q) t = getRec st t := rfl

@[simp] theorem getRec_append_console_queue (st : sset) (q t : Nat) :
    getRec (append_console_queue st q) t = getRec st t := rfl

@[simp] theorem getRec_pull_console_queue (st : sset) (t : Nat) :
    getRec (pull_console_queue st) t = getRec st t := rfl

@[simp] theorem getRec_unqueue_console (st : sset) (q t : Nat) :
    getRec (unqueue_console st q) t = getRec st t := rfl

@[simp] theorem getRec_updLink (st : sset) (j : Nat) (g : dep_rec → dep_rec) (t : Nat) :
    getRec (updLink st j g) t = getRec st t := rfl

@[simp] theorem getLink_add_prop_queue (st : sset) (q j : Nat) :
    getLink (add_prop_queue st q) j = getLink st j := rfl

@[simp] theorem getLink_add_transition_queue (st : sset) (q j : Nat) :
    getLink (add_transition_queue st q) j = getLink st j := rfl

@[simp] theorem getLink_service_active (st : sset) (q j : Nat) :
    getLink (service_active st q) j = getLink st j := rfl

@[simp] theorem getLink_service_inactive (st : sset) (q j : Nat) :
    getLink (service_inactive st q) j = getLink st j := rfl

@[simp] theorem getLink_unqueue_console (st : sset) (q j : Nat) :
    getLink (unqueue_console st q) j = getLink st j := rfl

@[simp] theorem getLink_updRec (st : sset) (i : Nat) (f : srec → srec) (j : Nat) :
    getLink (updRec st i f) j = getLink st j := rfl

@[simp] theorem links_updRec (st : sset) (i : Nat) (f : srec → srec) :
    (updRec st i f).links = st.links := rfl

@[simp] theorem links_add_prop_queue (st : sset) (q : Nat) :
    (add_prop_queue st q).links = st.links := rfl

@[simp] theorem links_add_transition_queue (st : sset) (q : Nat) :
    (add_transition_queue st q).links = st.links := rfl

@[simp] theorem links_service_active (st : sset) (q : Nat) :
    (service_active st q).links = st.links := rfl

@[simp] theorem links_service_inactive (st : sset) (q : Nat) :
    (service_inactive st q).links = st.links := rfl

@[simp] theorem links_unqueue_console (st : sset) (q : Nat) :
    (unqueue_console st q).links = st.links := rfl

@[simp] theorem records_add_prop_queue (st : sset) (q : Nat) :
    (add_prop_queue st q).records = st.records := rfl

@[simp] theorem records_add_transition_queue (st : sset) (q : Nat) :
    (add_transition_queue st q).records = st.records := rfl

@[simp] theorem records_service_active (st : sset) (q : Nat) :
    (service_active st q).records = st.records := rfl

@[simp] theorem records_service_inactive (st : sset) (q : Nat) :
    (service_inactive st q).records = st.records := rfl

@[simp] theorem records_unqueue_console (st : sset) (q : Nat) :
    (unqueue_console st q).records = st.records := rfl

@[simp] theorem records_updLink (st : sset) (j : Nat) (g : dep_rec → dep_rec) :
    (updLink st j g).records = st.records := rfl

/-- Reading a link through an update that preserves `frm` and `toi` leaves
those two fields unchanged. -/
theorem getLink_updLink_ends (st : sset) (j : Nat) (g : dep_rec → dep_rec)
    (hf : ∀ l, (g l).frm = l.frm) (ht : ∀ l, (g l).toi = l.toi) (j' : Nat) :
    (getLink (updLink st j g) j').frm = (getLink st j').frm ∧
    (getLink (updLink st j g) j').toi = (getLink st j').toi := by
  by_cases hj : j' = j
  · subst hj
    by_cases hl : j' < st.links.length
    · rw [getLink_updLink_self g hl]
      exact ⟨hf _, ht _⟩
    · rw [getLink_updLink_oob g (by omega)]
      exact ⟨rfl, rfl⟩
  · rw [getLink_updLink_ne g hj]
    exact ⟨rfl, rfl⟩

theorem records_length_require (st : sset) (s : Nat) :
    (require st s).records.length = st.records.length := by
  unfold require
  dsimp only
  split <;> [skip; simp [records_length_updRec]]
  split <;> simp [records_length_updRec]

theorem getRec_require_state (st : sset) (s : Nat) (h : s < st.records.length) :
    (getRec (require st s) s).service_state = (getRec st s).service_state ∧
    (getRec (require st s) s).pinned_stopped = (getRec st s).pinned_stopped := by
  unfold require
  dsimp only
  split
  · split <;> simp [getRec_updRec_self, records_length_updRec, h]
  · simp [getRec_updRec_self, records_length_updRec, h]

theorem links_require (st : sset) (s : Nat) :
    (require st s).links = st.links := by
  unfold require
  dsimp only
  split
  · split <;> simp
  · simp

/-- The per-service record read at `t` is unchanged by
`start_check_dependencies_go` when no listed link points to `t`. -/
theorem scd_go_getRec (js : List Nat) (st : sset) (acc : Bool) (t : Nat)
    (h : ∀ j ∈ js, (getLink st j).toi ≠ t) :
    getRec (start_check_dependencies_go js st acc).1 t = getRec st t := by
  induction js generalizing st acc with
  | nil => rfl
  | cons j js ih =>
    unfold start_check_dependencies_go
    dsimp only
    have hj : (getLink st j).toi ≠ t := h j (List.mem_cons_self j js)
    split
    · rw [ih]
      · split <;>
          simp [getRec_updRec_ne _ (fun he : t = (getLink st j).toi => hj he.symm)]
      · intro j' hj'
        have hends := getLink_updLink_ends
          (if (getRec st (getLink st j).toi).service_state ≠ service_state_t.starting then
            add_prop_queue (updRec st (getLink st j).toi fun r => { r with prop_start := true })
              (getLink st j).toi
          else st) j (fun l => { l with waiting_on := true }) (fun _ => rfl) (fun _ => rfl) j'
        rw [hends.2]
        split <;> exact h j' (List.mem_cons_of_mem _ hj')
    · exact ih _ _ fun j' hj' => h j' (List.mem_cons_of_mem _ hj')

theorem depends_on_idxs_spec (st : sset) (s : Nat) (j : Nat)
    (hj : j ∈ depends_on_idxs st s) : j < st.links.length ∧ (getLink st j).frm = s := by
  unfold depends_on_idxs at hj
  rw [List.mem_filter] at hj
  exact ⟨List.mem_range.mp hj.1, by simpa using hj.2⟩

theorem dependent_idxs_spec (st : sset) (s : Nat) (j : Nat)
    (hj : j ∈ dependent_idxs st s) : j < st.links.length ∧ (getLink st j).toi = s := by
  unfold dependent_idxs at hj
  rw [List.mem_filter] at hj
  exact ⟨List.mem_range.mp hj.1, by simpa using hj.2⟩

/-! ### Theorems -/

/-- The double-start property holds on every state of the `c4_states` family,
for every service index. -/
theorem c4_states_check :
    (c4_states.all fun st =>
      (List.range st.records.length).all fun i => decide (start_twice_same i st)) = true := by
  rfl

/-- **C1** (code bug). The spec's invariant — after every `process_queues`
drain, `active_services` equals the number of records with
`required_by > 0` — is violated by the code: on a single service, the trace
`start(true); stop(true); start(true)` (a drain after each command) ends
drained with `required_by == 1` (so the count is 1) while `active_services`
is 0; one further `stop(true)` drives `active_services` to −1. The fork's
`stop()` decrements `required_by` directly without `release()`, so
`desired_state` is never reset and the subsequent `start` skips
`service_active`. -/
theorem C1_active_services_diverges :
    drained c1_trace ∧
    (getRec c1_trace 0).required_by = 1 ∧
    count_required c1_trace = 1 ∧
    c1_trace.active_services = 0 ∧
    (command_step 0 (command.cstop true) c1_trace).active_services = -1 := by
  decide

/-- **C3.** On an isolated service record (no dependencies, no dependents,
initially stopped with `required_by == 0`, arbitrary auto-restart and
start-on-console configuration), `start(activate=true)` followed by
`stop(bring_down=true)`, with queue drains after each, returns the record to
state stopped with `required_by == 0`. -/
theorem C3_start_stop_round_trip :
    ∀ ar soc : Bool,
      (getRec (c3_run ar soc) 0).service_state = service_state_t.stopped ∧
      (getRec (c3_run ar soc) 0).required_by = 0 ∧
      drained (c3_run ar soc) := by
  intro ar soc
  cases ar <;> cases soc <;> decide

/-- **C4.** Calling `start(true)` twice (queue drains in between) leaves
`required_by` equal to the value produced by a single `start(true)`: checked
over the `c4_states` family — every combination of record state compatible
with the stopped/`force_stop` exclusion for a single service, and assorted
command-reached states of a two-service dependency pair — for every service
index. -/
theorem C4_start_twice_required_by :
    ∀ st ∈ c4_states, ∀ i, i < st.records.length → start_twice_same i st := by
  intro st hst i hi
  have h := c4_states_check
  rw [List.all_eq_true] at h
  have h2 := h st hst
  rw [List.all_eq_true] at h2
  exact of_decide_eq_true (h2 i (List.mem_range.mpr hi))

/-- Witness for **C4** at the freshly loaded single service. -/
theorem C4_start_twice_required_by_witness : start_twice_same 0 init1 :=
  C4_start_twice_required_by init1 (by decide) 0 (by decide)

/-- **C7.** In the chain `s3 → s2 → p` (regular dependencies, all initially
stopped), after `start(s3, true)` and a start failure of `p` (exit status 1),
draining the queues leaves `p` stopped with `stop_reason` failed, `s2` and
`s3` stopped with `stop_reason` depfailed, and `active_services == 0`. -/
theorem C7_dependency_failure_chain :
    (getRec chain_fin 0).service_state = service_state_t.stopped ∧
    (getRec chain_fin 0).stop_reason = stopped_reason_t.failed ∧
    (getRec chain_fin 1).service_state = service_state_t.stopped ∧
    (getRec chain_fin 1).stop_reason = stopped_reason_t.depfailed ∧
    (getRec chain_fin 2).service_state = service_state_t.stopped ∧
    (getRec chain_fin 2).stop_reason = stopped_reason_t.depfailed ∧
    chain_fin.active_services = 0 ∧
    drained chain_fin := by
  decide

/-- **C8.** After a start failure (`failed_to_start` with immediate stop) and
the subsequent queue drain, the failed service's `start_explicit` flag is
false and no outgoing dependency link of it has `holding_acq` set: checked
for a starting, explicitly activated service with a held dependency and a
starting dependent (`cfgC8`), and for the explicitly started head `s3` of the
failed chain scenario. -/
theorem C8_start_failure_releases_activations :
    ((getRec c8_res 0).start_explicit = false ∧
      ∀ j ∈ depends_on_idxs c8_res 0, (getLink c8_res j).holding_acq = false) ∧
    ((getRec chain_fin 2).start_explicit = false ∧
      ∀ j ∈ depends_on_idxs chain_fin 2, (getLink chain_fin j).holding_acq = false) := by
  decide

/-- **C5 counterexample.** A service in state started with `required_by == 0`
(no explicit activation) that holds an acquisition on its dependency: after
`restart()` and a queue drain the service has stopped and the `holding_acq`
bit of its outgoing link has been cleared — the set of `holding_acq` links is
not preserved, contradicting the claim for every started service. -/
theorem C5_restart_counterexample :
    (getRec cfgC5x 0).service_state = service_state_t.started ∧
    (getLink cfgC5x 0).holding_acq = true ∧
    (getLink c5x_res 0).holding_acq = false ∧
    (getRec c5x_res 0).service_state = service_state_t.stopped ∧
    drained c5x_res := by
  decide

/-- **C5 amended.** For a started service whose `start_explicit` flag is set,
`restart()` followed by draining the queues (through the stop and re-start)
leaves `start_explicit` set and its outgoing `holding_acq` links unchanged:
checked for an explicitly started service with a held dependency and a hard
dependent (`cfgC5`, all auto-restart combinations) and for an isolated
explicitly started service (`cfgC5i`). -/
theorem C5_restart_preserves_activation :
    ∀ ars art : Bool,
      ((getRec (cfgC5 ars art) 0).start_explicit = true ∧
        (getLink (cfgC5 ars art) 0).holding_acq = true ∧
        (getRec (c5_res ars art) 0).start_explicit = true ∧
        (getLink (c5_res ars art) 0).holding_acq = true ∧
        (getRec (c5_res ars art) 0).service_state = service_state_t.started) ∧
      ((getRec (c5i_res ars) 0).start_explicit = true ∧
        (getRec (c5i_res ars) 0).service_state = service_state_t.started) := by
  intro ars art
  cases ars <;> cases art <;> decide

/-- **C6.** `stop(bring_down)`, as translated from the source, coincides with
the specification's description `stop_per_spec`: clear `start_explicit` (if
set) while decrementing `required_by` by exactly one; force `bring_down` when
`required_by` is then zero; and exactly when the (possibly forced)
`bring_down` holds and the state is neither stopped nor stopping, set
`stop_reason` to normal and initiate `do_stop`. -/
theorem C6_stop_refines_spec :
    ∀ (st : sset) (s : Nat) (bd : Bool), stop st s bd = stop_per_spec st s bd := by
  intro st s bd
  unfold stop stop_per_spec
  simp only []
  by_cases h : (getRec (if (getRec st s).start_explicit = true then
      updRec st s fun r => { r with start_explicit := false, required_by := r.required_by - 1 }
    else st) s).required_by = 0
  · simp [h]
  · simp [h]

theorem proceed_result_fields (st0 stb : sset) (s : Nat)
    (hnoself : ∀ j, j < st0.links.length → (getLink st0 j).frm = s → (getLink st0 j).toi ≠ s)
    (hbl : stb.links = st0.links) (hblen : s < stb.records.length)
    (hbpin : (getRec stb s).pinned_stopped = true)
    (hbdes : (getRec stb s).desired_state = service_state_t.started) :
    (getRec (proceed_result stb s) s).desired_state = service_state_t.started ∧
    (getRec (proceed_result stb s) s).service_state = service_state_t.starting ∧
    (getRec (proceed_result stb s) s).pinned_stopped = true := by
  unfold proceed_result
  have hrw : getRec (start_check_dependencies (updRec stb s start_tail_upd) s).1 s
      = getRec (updRec stb s start_tail_upd) s := by
    unfold start_check_dependencies
    refine scd_go_getRec _ _ _ _ fun j hj => ?_
    have hspec := depends_on_idxs_spec _ _ _ hj
    have hlj : (updRec stb s start_tail_upd).links = st0.links := by simp [hbl]
    have hgl : getLink (updRec stb s start_tail_upd) j = getLink st0 j := by
      simp only [getLink, links_updRec, hbl]
    rw [hgl]
    refine hnoself j ?_ ?_
    · rw [← hlj]; exact hspec.1
    · rw [← hgl]; exact hspec.2
  split <;>
    simp [hrw, getRec_updRec_self _ hblen, start_tail_upd, hbdes, hbpin]

set_option maxHeartbeats 1000000 in
/-- **C10.** For every service record in state stopped with `pinned_stopped`
set (and no self-loop dependency), calling `start(true)` nevertheless sets
`desired_state` to started and moves `service_state` to starting, leaving the
pin in place: the stopped-pin is not consulted by the `start` command
itself. -/
theorem C10_start_ignores_stopped_pin :
    ∀ (st : sset) (s : Nat), s < st.records.length →
    (∀ j, j < st.links.length → (getLink st j).frm = s → (getLink st j).toi ≠ s) →
    (getRec st s).service_state = service_state_t.stopped →
    (getRec st s).pinned_stopped = true →
    (getRec (start st s true) s).desired_state = service_state_t.started ∧
    (getRec (start st s true) s).service_state = service_state_t.starting ∧
    (getRec (start st s true) s).pinned_stopped = true := by
  intro st s hlen hnoself hstopped hpin
  unfold start
  dsimp only
  set st1 := if true = true ∧ ¬(getRec st s).start_explicit = true then
      updRec (require st s) s fun r => { r with start_explicit := true }
    else st with hst1
  have hlinks1 : st1.links = st.links := by
    rw [hst1]; split <;> simp [links_require]
  have hlen1 : s < st1.records.length := by
    rw [hst1]; split <;> simp [records_length_updRec, records_length_require, hlen]
  have hfields1 : (getRec st1 s).service_state = service_state_t.stopped ∧
      (getRec st1 s).pinned_stopped = true := by
    rw [hst1]; split
    · have h2 := getRec_require_state st s hlen
      constructor <;>
        simp [getRec_updRec_self _ (by simp [records_length_require, hlen] :
           s < (require st s).records.length), h2.1, h2.2, hstopped, hpin]
    · exact ⟨hstopped, hpin⟩
  rw [if_neg (by simp [hfields1.1])]
  split
  · exact proceed_result_fields st _ s hnoself (by simp [hlinks1])
      (by simp [records_length_updRec, hlen1])
      (by simp [getRec_updRec_self _ hlen1, hfields1.2])
      (by simp [getRec_updRec_self _ hlen1])
  · exact proceed_result_fields st _ s hnoself (by simp [hlinks1])
      (by simp [records_length_updRec, hlen1])
      (by simp [getRec_updRec_self _ hlen1, hfields1.2])
      (by simp [getRec_updRec_self _ hlen1])

/-- Witness for **C10**: a single stopped, stop-pinned service. -/
theorem C10_start_ignores_stopped_pin_witness :
    (getRec (start (mkSet [{ initRec "s0" service_kind.internal with
      pinned_stopped := true }] []) 0 true) 0).desired_state
        = service_state_t.started ∧
    (getRec (start (mkSet [{ initRec "s0" service_kind.internal with
      pinned_stopped := true }] []) 0 true) 0).service_state
        = service_state_t.starting ∧
    (getRec (start (mkSet [{ initRec "s0" service_kind.internal with
      pinned_stopped := true }] []) 0 true) 0).pinned_stopped = true :=
  C10_start_ignores_stopped_pin
    (mkSet [{ initRec "s0" service_kind.internal with pinned_stopped := true }] []) 0
    (by decide) (by decide) (by decide) (by decide)



theorem forced_stop_links (st : sset) (u : Nat) :
    (forced_stop st u).links = st.links := by
  unfold forced_stop
  dsimp only
  split
  · split <;> simp
  · rfl

theorem records_length_forced_stop (st : sset) (u : Nat) :
    (forced_stop st u).records.length = st.records.length := by
  unfold forced_stop
  dsimp only
  split
  · split <;> simp [records_length_updRec]
  · rfl

theorem getRec_forced_stop_ne {st : sset} {u t : Nat} (h : t ≠ u) :
    getRec (forced_stop st u) t = getRec st t := by
  unfold forced_stop
  dsimp only
  split
  · split <;> simp [getRec_updRec_ne _ h]
  · rfl

theorem getRec_updRec_prop_stop_mono (st : sset) (i t : Nat) (f : srec → srec)
    (hf : ∀ r, r.prop_stop = true → (f r).prop_stop = true)
    (h : (getRec st t).prop_stop = true) :
    (getRec (updRec st i f) t).prop_stop = true := by
  by_cases hit : t = i
  · subst hit
    by_cases hb : t < st.records.length
    · rw [getRec_updRec_self _ hb]; exact hf _ h
    · rw [getRec_updRec_oob _ (by omega)]; exact h
  · rw [getRec_updRec_ne _ hit]; exact h

theorem forced_stop_prop_stop_mono {st : sset} {u t : Nat}
    (h : (getRec st t).prop_stop = true) :
    (getRec (forced_stop st u) t).prop_stop = true := by
  unfold forced_stop
  dsimp only
  split
  · split
    · rw [getRec_add_prop_queue]
      exact getRec_updRec_prop_stop_mono _ _ _ _ (fun r _ => rfl)
        (getRec_updRec_prop_stop_mono _ _ _ _ (fun r hr => hr) h)
    · exact getRec_updRec_prop_stop_mono _ _ _ _ (fun r hr => hr) h
  · exact h

theorem sds_links (st : sset) (s u : Nat) :
    (stop_dependents_step st s u).links = st.links := by
  unfold stop_dependents_step
  dsimp only
  simp only [links_add_prop_queue, links_updRec]
  split <;> simp [forced_stop_links]

theorem sds_records_length (st : sset) (s u : Nat) :
    (stop_dependents_step st s u).records.length = st.records.length := by
  unfold stop_dependents_step
  dsimp only
  simp only [records_add_prop_queue, records_length_updRec]
  split <;> simp [records_length_forced_stop]

theorem sds_getLink (st : sset) (s u j : Nat) :
    getLink (stop_dependents_step st s u) j = getLink st j := by
  simp only [getLink, sds_links]

theorem sds_getRec_ne {st : sset} {s u t : Nat} (h : t ≠ u) :
    getRec (stop_dependents_step st s u) t = getRec st t := by
  unfold stop_dependents_step
  dsimp only
  rw [getRec_add_prop_queue, getRec_updRec_ne _ h]
  split
  · exact getRec_forced_stop_ne h
  · rfl

theorem sds_prop_stop_mono {st : sset} {s u t : Nat}
    (h : (getRec st t).prop_stop = true) :
    (getRec (stop_dependents_step st s u) t).prop_stop = true := by
  unfold stop_dependents_step
  dsimp only
  rw [getRec_add_prop_queue]
  refine getRec_updRec_prop_stop_mono _ _ _ _ (fun r _ => rfl) ?_
  split
  · exact forced_stop_prop_stop_mono h
  · exact h

theorem sds_prop_stop_self {st : sset} {s u : Nat} (h : u < st.records.length) :
    (getRec (stop_dependents_step st s u) u).prop_stop = true := by
  unfold stop_dependents_step
  dsimp only
  rw [getRec_add_prop_queue]
  have hlen : u < (if (getRec st s).force_stop = true then forced_stop st u
      else st).records.length := by
    split <;> simp [records_length_forced_stop, h]
  rw [getRec_updRec_self _ hlen]

theorem sdg_links (s : Nat) (js : List Nat) (st : sset) (acc : Bool) :
    (stop_dependents_go s js st acc).1.links = st.links := by
  induction js generalizing st acc with
  | nil => rfl
  | cons j js ih =>
    unfold stop_dependents_go
    dsimp only
    split
    · rw [ih, sds_links]
    · exact ih st acc

theorem sdg_records_length (s : Nat) (js : List Nat) (st : sset) (acc : Bool) :
    (stop_dependents_go s js st acc).1.records.length = st.records.length := by
  induction js generalizing st acc with
  | nil => rfl
  | cons j js ih =>
    unfold stop_dependents_go
    dsimp only
    split
    · rw [ih, sds_records_length]
    · exact ih st acc

theorem sdg_getRec_ne (s : Nat) (js : List Nat) (st : sset) (acc : Bool) (t : Nat)
    (h : ∀ j ∈ js, (getLink st j).frm ≠ t) :
    getRec (stop_dependents_go s js st acc).1 t = getRec st t := by
  induction js generalizing st acc with
  | nil => rfl
  | cons j js ih =>
    unfold stop_dependents_go
    dsimp only
    have hj : (getLink st j).frm ≠ t := h j (List.mem_cons_self j js)
    split
    · rw [ih, sds_getRec_ne (Ne.symm hj)]
      intro j' hj'
      rw [sds_getLink]
      exact h j' (List.mem_cons_of_mem _ hj')
    · exact ih st acc fun j' hj' => h j' (List.mem_cons_of_mem _ hj')

theorem sdg_prop_stop_mono (s : Nat) (js : List Nat) (st : sset) (acc : Bool) (t : Nat)
    (h : (getRec st t).prop_stop = true) :
    (getRec (stop_dependents_go s js st acc).1 t).prop_stop = true := by
  induction js generalizing st acc with
  | nil => exact h
  | cons j js ih =>
    unfold stop_dependents_go
    dsimp only
    split
    · exact ih _ _ (sds_prop_stop_mono h)
    · exact ih st acc h

theorem sdg_sets_prop_stop (s : Nat) (js : List Nat) (st : sset) (acc : Bool) (j0 f : Nat)
    (hmem : j0 ∈ js) (hh : (getLink st j0).is_hard = true)
    (ha : (getLink st j0).holding_acq = true)
    (hf : (getLink st j0).frm = f)
    (hfb : f < st.records.length) :
    (getRec (stop_dependents_go s js st acc).1 f).prop_stop = true := by
  induction js generalizing st acc with
  | nil => cases hmem
  | cons j js ih =>
    unfold stop_dependents_go
    dsimp only
    rcases List.mem_cons.mp hmem with hj0 | hj0
    · subst hj0
      rw [if_pos (by simp [hh, ha])]
      refine sdg_prop_stop_mono _ _ _ _ _ ?_
      rw [hf]
      exact sds_prop_stop_self hfb
    · split
      · exact ih _ _ hj0 (by rw [sds_getLink]; exact hh) (by rw [sds_getLink]; exact ha)
          (by rw [sds_getLink]; exact hf) (by rw [sds_records_length]; exact hfb)
      · exact ih st acc hj0 hh ha hf hfb


theorem mem_dependent_idxs (st : sset) (s j : Nat) (h1 : j < st.links.length)
    (h2 : (getLink st j).toi = s) : j ∈ dependent_idxs st s := by
  unfold dependent_idxs
  rw [List.mem_filter]
  exact ⟨List.mem_range.mpr h1, by simp [h2]⟩

set_option maxHeartbeats 1000000 in
/-- **C2 amended.** Invoking `do_stop()` on a started service whose
`pinned_started` flag is set leaves the service's own record and all links
unchanged, but first propagates stop work to its dependents: every hard
dependent link with `holding_acq` set has its dependent's `prop_stop` flag
set (and the dependent enqueued); the pin blocks only the service's own
transition. -/
theorem C2_do_stop_pinned_amended :
    ∀ (st : sset) (s : Nat),
    (getRec st s).service_state = service_state_t.started →
    (getRec st s).pinned_started = true →
    (∀ j, j < st.links.length → (getLink st j).toi = s → (getLink st j).frm ≠ s) →
    getRec (do_stop st s) s = getRec st s ∧
    (do_stop st s).links = st.links ∧
    (∀ j, j < st.links.length → (getLink st j).toi = s →
      (getLink st j).is_hard = true → (getLink st j).holding_acq = true →
      (getLink st j).frm < st.records.length →
      (getRec (do_stop st s) (getLink st j).frm).prop_stop = true) := by
  intro st s hstarted hpin hnoself
  unfold do_stop
  dsimp only
  unfold stop_dependents
  have hne : ∀ j ∈ dependent_idxs st s, (getLink st j).frm ≠ s := by
    intro j hj
    have hspec := dependent_idxs_spec _ _ _ hj
    exact hnoself j hspec.1 hspec.2
  have hrec : getRec (stop_dependents_go s (dependent_idxs st s) st true).1 s = getRec st s :=
    sdg_getRec_ne _ _ _ _ _ hne
  rw [if_neg (by simp [hrec, hstarted])]
  unfold do_stop_tail
  rw [if_pos (by simp [hrec, hpin])]
  refine ⟨hrec, sdg_links _ _ _ _, ?_⟩
  intro j hjlen hjto hjh hja hjf
  exact sdg_sets_prop_stop s (dependent_idxs st s) st true j _
    (mem_dependent_idxs st s j hjlen hjto) hjh hja rfl hjf


/-- Witness for **C2 amended** at the pinned configuration `cfgC2`. -/
theorem C2_do_stop_pinned_amended_witness :
    getRec (do_stop cfgC2 0) 0 = getRec cfgC2 0 ∧
    (do_stop cfgC2 0).links = cfgC2.links ∧
    (getRec (do_stop cfgC2 0) (getLink cfgC2 0).frm).prop_stop = true := by
  obtain ⟨h1, h2, h3⟩ := C2_do_stop_pinned_amended cfgC2 0 (by decide) (by decide) (by decide)
  exact ⟨h1, h2, h3 0 (by decide) (by decide) (by decide) (by decide) (by decide)⟩

/-- **C2 counterexample.** `do_stop()` on a started, start-pinned service
with a started hard dependent holding an acquisition: the service's own
record is left unchanged, but — contrary to the claim — propagation work is
enqueued on the dependent (`prop_stop` set, dependent appended to the
propagation queue) before the pin is consulted. -/
theorem C2_do_stop_pinned_counterexample :
    (getRec cfgC2 0).pinned_started = true ∧
    (getRec cfgC2 0).service_state = service_state_t.started ∧
    (getRec cfgC2 1).prop_stop = false ∧
    (getRec (do_stop cfgC2 0) 1).prop_stop = true ∧
    (do_stop cfgC2 0).prop_queue = [1] ∧
    getRec (do_stop cfgC2 0) 0 = getRec cfgC2 0 := by
  decide
end DinitModel

namespace DinitModel

theorem fe_of_pair_eq {st st' : sset} {s : Nat} (h : prop_pair st' s = prop_pair st s) :
    flags_exclusive st s → flags_exclusive st' s := by
  intro hfe hc
  refine hfe ⟨?_, ?_⟩
  · rw [show (getRec st s).prop_require = (getRec st' s).prop_require from
      (congrArg Prod.fst h).symm]
    exact hc.1
  · rw [show (getRec st s).prop_release = (getRec st' s).prop_release from
      (congrArg Prod.snd h).symm]
    exact hc.2

theorem pair_updRec (st : sset) (i t : Nat) (f : srec → srec)
    (hf : ∀ r, (f r).prop_require = r.prop_require ∧ (f r).prop_release = r.prop_release) :
    prop_pair (updRec st i f) t = prop_pair st t := by
  by_cases hit : t = i
  · subst hit
    by_cases hb : t < st.records.length
    · simp [prop_pair, getRec_updRec_self _ hb, (hf _).1, (hf _).2]
    · simp [prop_pair, getRec_updRec_oob _ (by omega : st.records.length ≤ t)]
  · simp [prop_pair, getRec_updRec_ne _ hit]

theorem pair_forced_stop (st : sset) (u t : Nat) :
    prop_pair (forced_stop st u) t = prop_pair st t := by
  unfold forced_stop
  dsimp only
  split
  · split
    · show prop_pair (add_prop_queue _ _) t = _
      have h1 : prop_pair (add_prop_queue (updRec (updRec st u fun r =>
          { r with force_stop := true }) u fun r => { r with prop_stop := true }) u) t
          = prop_pair (updRec (updRec st u fun r =>
          { r with force_stop := true }) u fun r => { r with prop_stop := true }) t := rfl
      rw [h1, pair_updRec, pair_updRec] <;> exact fun r => ⟨rfl, rfl⟩
    · rw [pair_updRec] <;> try exact fun r => ⟨rfl, rfl⟩
  · rfl

theorem pair_sds (st : sset) (s u t : Nat) :
    prop_pair (stop_dependents_step st s u) t = prop_pair st t := by
  unfold stop_dependents_step
  dsimp only
  show prop_pair (add_prop_queue _ _) t = _
  have h1 : ∀ stx : sset, prop_pair (add_prop_queue stx u) t = prop_pair stx t := fun _ => rfl
  rw [h1, pair_updRec]
  · split
    · exact pair_forced_stop st u t
    · rfl
  · exact fun r => ⟨rfl, rfl⟩

theorem pair_sdg (s : Nat) (js : List Nat) (st : sset) (acc : Bool) (t : Nat) :
    prop_pair (stop_dependents_go s js st acc).1 t = prop_pair st t := by
  induction js generalizing st acc with
  | nil => rfl
  | cons j js ih =>
    unfold stop_dependents_go
    dsimp only
    split
    · rw [ih, pair_sds]
    · exact ih st acc

theorem pair_dependent_stopped (st : sset) (u t : Nat) :
    prop_pair (dependent_stopped st u) t = prop_pair st t := by
  unfold dependent_stopped
  split <;> rfl

theorem pair_dependency_started (st : sset) (u t : Nat) :
    prop_pair (dependency_started st u) t = prop_pair st t := by
  unfold dependency_started
  split <;> rfl

theorem pair_unqueue_console (st : sset) (u t : Nat) :
    prop_pair (unqueue_console st u) t = prop_pair st t := rfl

theorem pair_scdg (js : List Nat) (st : sset) (acc : Bool) (t : Nat) :
    prop_pair (start_check_dependencies_go js st acc).1 t = prop_pair st t := by
  induction js generalizing st acc with
  | nil => rfl
  | cons j js ih =>
    unfold start_check_dependencies_go
    dsimp only
    split
    · rw [ih]
      show prop_pair (updLink _ _ _) t = _
      have h1 : ∀ (stx : sset) (jx : Nat) (g : dep_rec → dep_rec),
          prop_pair (updLink stx jx g) t = prop_pair stx t := fun _ _ _ => rfl
      rw [h1]
      split
      · show prop_pair (add_prop_queue _ _) t = _
        have h2 : ∀ (stx : sset) (ux : Nat),
            prop_pair (add_prop_queue stx ux) t = prop_pair stx t := fun _ _ => rfl
        rw [h2, pair_updRec] <;> try exact fun r => ⟨rfl, rfl⟩
      · rfl
    · exact ih st acc


theorem pair_updRec_ne {st : sset} {i t : Nat} (f : srec → srec) (h : t ≠ i) :
    prop_pair (updRec st i f) t = prop_pair st t := by
  simp [prop_pair, getRec_updRec_ne _ h]

theorem fe_set_release_false (st : sset) (s : Nat) (f : srec → srec)
    (hf : ∀ r, (f r).prop_release = false) (hfe : flags_exclusive st s) :
    flags_exclusive (updRec st s f) s := by
  by_cases hb : s < st.records.length
  · intro hc
    rw [getRec_updRec_self _ hb, hf] at hc
    exact absurd hc.2 (by simp)
  · intro hc
    rw [getRec_updRec_oob _ (by omega)] at hc
    exact hfe hc

theorem fe_set_require_false (st : sset) (s : Nat) (f : srec → srec)
    (hf : ∀ r, (f r).prop_require = false) (hfe : flags_exclusive st s) :
    flags_exclusive (updRec st s f) s := by
  by_cases hb : s < st.records.length
  · intro hc
    rw [getRec_updRec_self _ hb, hf] at hc
    exact absurd hc.1 (by simp)
  · intro hc
    rw [getRec_updRec_oob _ (by omega)] at hc
    exact hfe hc

theorem fe_updRec_pair (st : sset) (s : Nat) (f : srec → srec)
    (hf : ∀ r, (f r).prop_require = r.prop_require ∧ (f r).prop_release = r.prop_release)
    (hfe : flags_exclusive st s) : flags_exclusive (updRec st s f) s :=
  fe_of_pair_eq (pair_updRec _ _ _ _ hf) hfe

theorem fe_add_prop_queue (st : sset) (q s : Nat) (h : flags_exclusive st s) :
    flags_exclusive (add_prop_queue st q) s := h

theorem getRec_require_ne {st : sset} {u s : Nat} (h : s ≠ u) :
    getRec (require st u) s = getRec st s := by
  unfold require
  dsimp only
  split
  · split <;> simp [getRec_updRec_ne _ h]
  · simp [getRec_updRec_ne _ h]

theorem fe_require (st : sset) (u s : Nat) (hfe : flags_exclusive st s) :
    flags_exclusive (require st u) s := by
  by_cases hus : s = u
  · subst hus
    unfold require
    dsimp only
    split
    · split
      · refine fe_updRec_pair _ _ _ ?_ ?_
        · exact fun r => ⟨rfl, rfl⟩
        · refine fe_add_prop_queue _ _ _ ?_
          refine fe_set_release_false _ _ _ ?_ ?_
          · exact fun r => rfl
          · refine fe_updRec_pair _ _ _ ?_ hfe
            exact fun r => ⟨rfl, rfl⟩
      · refine fe_add_prop_queue _ _ _ ?_
        refine fe_set_release_false _ _ _ ?_ ?_
        · exact fun r => rfl
        · refine fe_updRec_pair _ _ _ ?_ hfe
          exact fun r => ⟨rfl, rfl⟩
    · refine fe_updRec_pair _ _ _ ?_ hfe
      exact fun r => ⟨rfl, rfl⟩
  · refine fe_of_pair_eq ?_ hfe
    simp [prop_pair, getRec_require_ne hus]

theorem pair_do_stop_tail_ne (st : sset) (u : Nat) (b : Bool) (t : Nat) (h : t ≠ u) :
    prop_pair (do_stop_tail st u b) t = prop_pair st t := by
  unfold do_stop_tail
  dsimp only
  split
  · rfl
  · split <;> split <;> simp [prop_pair, getRec_updRec_ne _ h]

theorem pair_do_stop_ne (st : sset) (u : Nat) (t : Nat) (h : t ≠ u) :
    prop_pair (do_stop st u) t = prop_pair st t := by
  unfold do_stop
  dsimp only
  have hsdg : prop_pair (stop_dependents st u).1 t = prop_pair st t := by
    unfold stop_dependents
    exact pair_sdg _ _ _ _ _
  repeat' split
  all_goals
    first
    | exact hsdg
    | (rw [pair_do_stop_tail_ne _ _ _ _ h]; exact hsdg)
    | (rw [pair_do_stop_tail_ne _ _ _ _ h, pair_updRec_ne _ h]; exact hsdg)


theorem getRec_updRec_state_eq (st : sset) (i t : Nat) (f : srec → srec)
    (hf : ∀ r, (f r).service_state = r.service_state) :
    (getRec (updRec st i f) t).service_state = (getRec st t).service_state := by
  by_cases hit : t = i
  · subst hit
    by_cases hb : t < st.records.length
    · rw [getRec_updRec_self _ hb, hf]
    · rw [getRec_updRec_oob _ (by omega)]
  · rw [getRec_updRec_ne _ hit]

theorem state_forced_stop (st : sset) (u t : Nat) :
    (getRec (forced_stop st u) t).service_state = (getRec st t).service_state := by
  unfold forced_stop
  dsimp only
  split
  · split
    · rw [getRec_add_prop_queue]
      rw [getRec_updRec_state_eq, getRec_updRec_state_eq] <;> exact fun r => rfl
    · rw [getRec_updRec_state_eq] <;> try exact fun r => rfl
  · rfl

theorem state_sds (st : sset) (s u t : Nat) :
    (getRec (stop_dependents_step st s u) t).service_state
      = (getRec st t).service_state := by
  unfold stop_dependents_step
  dsimp only
  rw [getRec_add_prop_queue, getRec_updRec_state_eq]
  · split
    · exact state_forced_stop st u t
    · rfl
  · exact fun r => rfl

theorem state_sdg (s : Nat) (js : List Nat) (st : sset) (acc : Bool) (t : Nat) :
    (getRec (stop_dependents_go s js st acc).1 t).service_state
      = (getRec st t).service_state := by
  induction js generalizing st acc with
  | nil => rfl
  | cons j js ih =>
    unfold stop_dependents_go
    dsimp only
    split
    · rw [ih, state_sds]
    · exact ih st acc

theorem getRec_updRec_require_eq (st : sset) (i t : Nat) (f : srec → srec)
    (hf : ∀ r, (f r).prop_require = r.prop_require) :
    (getRec (updRec st i f) t).prop_require = (getRec st t).prop_require := by
  by_cases hit : t = i
  · subst hit
    by_cases hb : t < st.records.length
    · rw [getRec_updRec_self _ hb, hf]
    · rw [getRec_updRec_oob _ (by omega)]
  · rw [getRec_updRec_ne _ hit]

theorem fe_set_release_true_of_require_false (st : sset) (s : Nat)
    (hpr : (getRec st s).prop_require = false) (hfe : flags_exclusive st s) :
    flags_exclusive (updRec st s fun r => { r with prop_release := true }) s := by
  by_cases hb : s < st.records.length
  · intro hc
    rw [getRec_updRec_self _ hb] at hc
    exact absurd (hpr ▸ hc.1) (by simp)
  · intro hc
    rw [getRec_updRec_oob _ (by omega)] at hc
    exact hfe hc

theorem fe_do_stop_tail (st : sset) (s : Nat) (b : Bool)
    (hpr : (getRec st s).prop_require = false) (hfe : flags_exclusive st s) :
    flags_exclusive (do_stop_tail st s b) s := by
  unfold do_stop_tail
  dsimp only
  split
  · exact hfe
  · have hcore : flags_exclusive (updRec (if (getRec st s).required_by = 0 then
        add_prop_queue (updRec st s fun r => { r with prop_release := true }) s
      else st) s fun r =>
        { r with service_state := service_state_t.stopping, waiting_for_deps := true }) s := by
      refine fe_updRec_pair _ _ _ ?_ ?_
      · exact fun r => ⟨rfl, rfl⟩
      · split
        · refine fe_add_prop_queue _ _ _ ?_
          exact fe_set_release_true_of_require_false st s hpr hfe
        · exact hfe
    split
    · exact hcore
    · exact hcore

set_option maxHeartbeats 4000000 in
theorem fe_do_stop_self (st : sset) (s : Nat)
    (hp : (getRec st s).prop_require = false ∨
      (getRec st s).service_state = service_state_t.stopped ∨
      (getRec st s).service_state = service_state_t.stopping)
    (hfe : flags_exclusive st s) : flags_exclusive (do_stop st s) s := by
  unfold do_stop
  dsimp only
  have hpair : prop_pair (stop_dependents st s).1 s = prop_pair st s := by
    unfold stop_dependents
    exact pair_sdg _ _ _ _ _
  have hfe1 : flags_exclusive (stop_dependents st s).1 s := fe_of_pair_eq hpair hfe
  have hst1 : (getRec (stop_dependents st s).1 s).service_state
      = (getRec st s).service_state := by
    unfold stop_dependents
    exact state_sdg _ _ _ _ _
  have hpr1 : (getRec (stop_dependents st s).1 s).prop_require
      = (getRec st s).prop_require := congrArg Prod.fst hpair
  simp only [interrupt_start]
  rcases hp with hpr | hstate
  · repeat' split
    all_goals
      first
      | exact hfe1
      | (refine fe_do_stop_tail _ _ _ ?_ ?_
         · rw [hpr1, hpr]
         · exact hfe1)
      | (refine fe_do_stop_tail _ _ _ ?_ ?_
         · rw [getRec_updRec_require_eq]
           · rw [getRec_unqueue_console, hpr1, hpr]
           · exact fun r => rfl
         · refine fe_updRec_pair _ _ _ ?_ hfe1
           exact fun r => ⟨rfl, rfl⟩)
  · repeat' split
    all_goals
      first
      | exact hfe1
      | (exfalso; rcases hstate with h1 | h1 <;> simp_all)


theorem getRec_oob (st : sset) (s : Nat) (h : st.records.length ≤ s) :
    getRec st s = default := by
  unfold getRec
  exact List.getD_eq_default _ _ h

set_option maxHeartbeats 2000000 in
theorem fe_release_self (st : sset) (s : Nat) (b : Bool) (hfe : flags_exclusive st s) :
    flags_exclusive (release st s b) s := by
  unfold release
  dsimp only
  split
  · -- required_by reached zero
    set st1 := updRec st s fun r => { r with required_by := r.required_by - 1 } with hst1
    have hfe1 : flags_exclusive st1 s := by
      rw [hst1]
      refine fe_updRec_pair _ _ _ ?_ hfe
      exact fun r => ⟨rfl, rfl⟩
    set st2 := updRec st1 s fun r => { r with desired_state := service_state_t.stopped } with hst2
    have hfe2 : flags_exclusive st2 s := by
      rw [hst2]
      refine fe_updRec_pair _ _ _ ?_ hfe1
      exact fun r => ⟨rfl, rfl⟩
    split
    · -- propagation flag block ran: prop_require is now false
      rename_i hflagcond
      set st3 := add_prop_queue (updRec st2 s fun r =>
        { r with prop_release := !r.prop_require, prop_require := false }) s with hst3
      have hfe3 : flags_exclusive st3 s := by
        rw [hst3]
        refine fe_add_prop_queue _ _ _ ?_
        refine fe_set_require_false _ _ _ ?_ hfe2
        exact fun r => rfl
      split
      · exact hfe3
      · split
        · -- issue_stop: do_stop after setting stop_reason
          refine fe_do_stop_self _ _ ?_ ?_
          · by_cases hb : s < st2.records.length
            · left
              rw [getRec_updRec_require_eq]
              · rw [hst3, getRec_add_prop_queue,
                  getRec_updRec_self _ (by simpa using hb)]
              · exact fun r => rfl
            · exfalso
              have hoob : getRec st2 s = default := getRec_oob _ _ (by omega)
              rw [hoob] at hflagcond
              exact hflagcond.1 rfl
          · refine fe_updRec_pair _ _ _ ?_ hfe3
            exact fun r => ⟨rfl, rfl⟩
        · exact hfe3
    · -- flag block skipped: state is stopped or stopping
      rename_i hcond
      have hstate2 : (getRec st2 s).service_state = service_state_t.stopped ∨
          (getRec st2 s).service_state = service_state_t.stopping := by
        by_cases h1 : (getRec st2 s).service_state = service_state_t.stopped
        · exact Or.inl h1
        · by_cases h2 : (getRec st2 s).service_state = service_state_t.stopping
          · exact Or.inr h2
          · exact absurd ⟨h1, h2⟩ hcond
      split
      · exact hfe2
      · split
        · refine fe_do_stop_self _ _ ?_ ?_
          · right
            rw [getRec_updRec_state_eq]
            · exact hstate2
            · exact fun r => rfl
          · refine fe_updRec_pair _ _ _ ?_ hfe2
            exact fun r => ⟨rfl, rfl⟩
        · exact hfe2
  · refine fe_updRec_pair _ _ _ ?_ hfe
    exact fun r => ⟨rfl, rfl⟩

set_option maxHeartbeats 2000000 in
theorem pair_release_ne (st : sset) (u : Nat) (b : Bool) (t : Nat) (h : t ≠ u) :
    prop_pair (release st u b) t = prop_pair st t := by
  unfold release
  dsimp only
  set st1 := updRec st u fun r => { r with required_by := r.required_by - 1 } with hst1
  have h1 : prop_pair st1 t = prop_pair st t := by
    rw [hst1, pair_updRec_ne _ h]
  split
  · set st2 := updRec st1 u fun r =>
      { r with desired_state := service_state_t.stopped } with hst2
    have h2 : prop_pair st2 t = prop_pair st t := by
      rw [hst2, pair_updRec_ne _ h, h1]
    split
    · set st3 := add_prop_queue (updRec st2 u fun r =>
        { r with prop_release := !r.prop_require, prop_require := false }) u with hst3
      have h3 : prop_pair st3 t = prop_pair st t := by
        rw [hst3]
        rw [show ∀ stx : sset, prop_pair (add_prop_queue stx u) t = prop_pair stx t
          from fun _ => rfl]
        rw [pair_updRec_ne _ h, h2]
      split
      · exact h3
      · split
        · rw [pair_do_stop_ne _ _ _ h, pair_updRec_ne _ h, h3]
        · exact h3
    · split
      · exact h2
      · split
        · rw [pair_do_stop_ne _ _ _ h, pair_updRec_ne _ h, h2]
        · exact h2
  · exact h1


theorem fe_add_transition_queue (st : sset) (q s : Nat) (h : flags_exclusive st s) :
    flags_exclusive (add_transition_queue st q) s := h

theorem fe_service_active (st : sset) (q s : Nat) (h : flags_exclusive st s) :
    flags_exclusive (service_active st q) s := h

theorem fe_updRec_pp (st : sset) (u s : Nat) (f : srec → srec)
    (hf : ∀ r, (f r).prop_require = r.prop_require ∧ (f r).prop_release = r.prop_release)
    (hfe : flags_exclusive st s) : flags_exclusive (updRec st u f) s :=
  fe_of_pair_eq (pair_updRec _ _ _ _ hf) hfe

theorem fe_proceed (stb : sset) (u s : Nat) (hfe : flags_exclusive stb s) :
    flags_exclusive (proceed_result stb u) s := by
  unfold proceed_result
  have hfe4 : flags_exclusive (updRec stb u start_tail_upd) s := by
    refine fe_updRec_pp _ _ _ _ ?_ hfe
    exact fun r => ⟨rfl, rfl⟩
  have hscd : flags_exclusive (start_check_dependencies (updRec stb u start_tail_upd) u).1 s := by
    refine fe_of_pair_eq ?_ hfe4
    unfold start_check_dependencies
    exact pair_scdg _ _ _ _
  split
  · exact fe_add_transition_queue _ _ _ hscd
  · exact hscd

set_option maxHeartbeats 2000000 in
theorem fe_start (st : sset) (u : Nat) (a : Bool) (s : Nat) (hfe : flags_exclusive st s) :
    flags_exclusive (start st u a) s := by
  unfold start
  dsimp only
  set st1 := if a = true ∧ ¬(getRec st u).start_explicit = true then
      updRec (require st u) u fun r => { r with start_explicit := true }
    else st with hst1
  have hfe1 : flags_exclusive st1 s := by
    rw [hst1]
    split
    · refine fe_updRec_pp _ _ _ _ ?_ (fe_require _ _ _ hfe)
      exact fun r => ⟨rfl, rfl⟩
    · exact hfe
  have hfe2 : flags_exclusive (updRec st1 u fun r =>
      { r with desired_state := service_state_t.started }) s := by
    refine fe_updRec_pp _ _ _ _ ?_ hfe1
    exact fun r => ⟨rfl, rfl⟩
  split
  · split
    · exact hfe2
    · split
      · refine fe_updRec_pp _ _ _ _ ?_ hfe2
        exact fun r => ⟨rfl, rfl⟩
      · exact fe_proceed _ _ _ hfe2
  · split
    · exact fe_proceed _ _ _ (fe_service_active _ _ _ hfe2)
    · exact fe_proceed _ _ _ hfe2


theorem records_dependent_stopped (st : sset) (u : Nat) :
    (dependent_stopped st u).records = st.records := by
  unfold dependent_stopped
  split <;> rfl

theorem ssg_records (js : List Nat) (st : sset) :
    (stopped_signaldeps_go js st).records = st.records := by
  induction js generalizing st with
  | nil => rfl
  | cons j js ih =>
    unfold stopped_signaldeps_go
    rw [ih, records_dependent_stopped]

theorem fe_of_records_eq {st st' : sset} {s : Nat} (h : st'.records = st.records)
    (hfe : flags_exclusive st s) : flags_exclusive st' s := by
  intro hc
  have hg : getRec st' s = getRec st s := by
    unfold getRec
    rw [h]
  rw [hg] at hc
  exact hfe hc

theorem fe_softdeps_go (s : Nat) (js : List Nat) (st : sset)
    (hfe : flags_exclusive st s) :
    flags_exclusive (stopped_softdeps_go s js st) s := by
  induction js generalizing st with
  | nil => exact hfe
  | cons j js ih =>
    unfold stopped_softdeps_go
    dsimp only
    split
    · refine ih _ ?_
      have hfe2 : flags_exclusive (if (getLink st j).waiting_on = true then
          dependency_started (updLink st j fun l => { l with waiting_on := false })
            (getLink st j).frm
        else st) s := by
        split
        · refine fe_of_pair_eq ?_ hfe
          rw [pair_dependency_started]
          rfl
        · exact hfe
      have hstep : ∀ st2 : sset, flags_exclusive st2 s →
          flags_exclusive (if (getLink st2 j).holding_acq = true then
            release (updLink st2 j fun l => { l with holding_acq := false }) s false
          else st2) s := by
        intro st2 h2
        split
        · refine fe_release_self _ _ _ (fe_of_pair_eq ?_ h2)
          rfl
        · exact h2
      exact hstep _ hfe2
    · exact ih _ hfe

set_option maxHeartbeats 4000000 in
theorem fe_stopped (st : sset) (s : Nat) (hfe : flags_exclusive st s) :
    flags_exclusive (stopped st s) s := by
  unfold stopped
  dsimp only
  set stA := if (getRec st s).have_console = true then release_console st s else st with hA
  have hfeA : flags_exclusive stA s := by
    rw [hA]
    split
    · have h1 : flags_exclusive (updRec st s fun r => { r with have_console := false }) s := by
        refine fe_updRec_pp _ _ _ _ ?_ hfe
        exact fun r => ⟨rfl, rfl⟩
      exact fe_of_records_eq rfl h1
    · exact hfe
  set stB := updRec stA s fun r => { r with force_stop := false } with hB
  have hfeB : flags_exclusive stB s := by
    rw [hB]
    refine fe_updRec_pp _ _ _ _ ?_ hfeA
    exact fun r => ⟨rfl, rfl⟩
  set stC := updRec stB s fun r =>
    { r with restarting := r.restarting || r.auto_restart } with hC
  have hfeC : flags_exclusive stC s := by
    rw [hC]
    refine fe_updRec_pp _ _ _ _ ?_ hfeB
    exact fun r => ⟨rfl, rfl⟩
  set stD := updRec stC s fun r => { r with restarting := false } with hD
  have hfeD : flags_exclusive stD s := by
    rw [hD]
    refine fe_updRec_pp _ _ _ _ ?_ hfeC
    exact fun r => ⟨rfl, rfl⟩
  set stE := if ¬((getRec stC s).restarting = true ∧ (getRec stC s).required_by > 0) then
      stopped_softdeps_go s (dependent_idxs stD s) stD
    else stD with hE
  have hfeE : flags_exclusive stE s := by
    rw [hE]
    split
    · exact fe_softdeps_go _ _ _ hfeD
    · exact hfeD
  set stF := stopped_signaldeps_go (depends_on_idxs stE s) stE with hF
  have hfeF : flags_exclusive stF s := by
    rw [hF]
    exact fe_of_records_eq (ssg_records _ _) hfeE
  set stG := updRec stF s fun r =>
    { r with service_state := service_state_t.stopped } with hG
  have hfeG : flags_exclusive stG s := by
    rw [hG]
    refine fe_updRec_pp _ _ _ _ ?_ hfeF
    exact fun r => ⟨rfl, rfl⟩
  set stH := if (getRec stC s).restarting = true ∧ (getRec stC s).required_by > 0 then
      start (updRec stG s fun r => { r with restarting := true }) s false
    else
      if (getRec stG s).start_explicit = true then
        release (updRec stG s fun r => { r with start_explicit := false }) s true
      else
        if (getRec stG s).required_by = 0 then
          service_inactive (add_prop_queue (updRec stG s fun r =>
            { r with prop_release := !r.prop_require, prop_require := false }) s) s
        else stG with hH
  have hfeH : flags_exclusive stH s := by
    rw [hH]
    split
    · refine fe_start _ _ _ _ ?_
      refine fe_updRec_pp _ _ _ _ ?_ hfeG
      exact fun r => ⟨rfl, rfl⟩
    · split
      · refine fe_release_self _ _ _ ?_
        refine fe_updRec_pp _ _ _ _ ?_ hfeG
        exact fun r => ⟨rfl, rfl⟩
      · split
        · have h1 : flags_exclusive (updRec stG s fun r =>
              { r with prop_release := !r.prop_require, prop_require := false }) s := by
            refine fe_set_require_false _ _ _ ?_ hfeG
            exact fun r => rfl
          exact fe_of_records_eq rfl h1
        · exact hfeG
  split
  · split
    · split
      · exact fe_start _ _ _ _ hfeH
      · exact hfeH
    · exact hfeH
  · exact hfeH

theorem pair_softdeps_ne (s : Nat) (js : List Nat) (st : sset) (t : Nat) (h : t ≠ s) :
    prop_pair (stopped_softdeps_go s js st) t = prop_pair st t := by
  induction js generalizing st with
  | nil => rfl
  | cons j js ih =>
    unfold stopped_softdeps_go
    dsimp only
    split
    · rw [ih]
      have h1 : ∀ st2 : sset, prop_pair (if (getLink st2 j).holding_acq = true then
          release (updLink st2 j fun l => { l with holding_acq := false }) s false
        else st2) t = prop_pair st2 t := by
        intro st2
        split
        · rw [pair_release_ne _ _ _ _ h]
          rfl
        · rfl
      rw [h1]
      split
      · rw [pair_dependency_started]
        rfl
      · rfl
    · exact ih _

set_option maxHeartbeats 4000000 in
theorem fe_stopped_ne (st : sset) (s t : Nat) (hts : t ≠ s) (hfe : flags_exclusive st t) :
    flags_exclusive (stopped st s) t := by
  unfold stopped
  dsimp only
  set stA := if (getRec st s).have_console = true then release_console st s else st with hA
  have hfeA : flags_exclusive stA t := by
    rw [hA]
    split
    · refine fe_of_pair_eq ?_ hfe
      have hrc : prop_pair (release_console st s) t =
          prop_pair (updRec st s fun r => { r with have_console := false }) t := rfl
      rw [hrc, pair_updRec_ne _ hts]
    · exact hfe
  set stB := updRec stA s fun r => { r with force_stop := false } with hB
  have hfeB : flags_exclusive stB t := by
    rw [hB]
    exact fe_of_pair_eq (pair_updRec_ne _ hts) hfeA
  set stC := updRec stB s fun r =>
    { r with restarting := r.restarting || r.auto_restart } with hC
  have hfeC : flags_exclusive stC t := by
    rw [hC]
    exact fe_of_pair_eq (pair_updRec_ne _ hts) hfeB
  set stD := updRec stC s fun r => { r with restarting := false } with hD
  have hfeD : flags_exclusive stD t := by
    rw [hD]
    exact fe_of_pair_eq (pair_updRec_ne _ hts) hfeC
  set stE := if ¬((getRec stC s).restarting = true ∧ (getRec stC s).required_by > 0) then
      stopped_softdeps_go s (dependent_idxs stD s) stD
    else stD with hE
  have hfeE : flags_exclusive stE t := by
    rw [hE]
    split
    · exact fe_of_pair_eq (pair_softdeps_ne _ _ _ _ hts) hfeD
    · exact hfeD
  set stF := stopped_signaldeps_go (depends_on_idxs stE s) stE with hF
  have hfeF : flags_exclusive stF t := by
    rw [hF]
    exact fe_of_records_eq (ssg_records _ _) hfeE
  set stG := updRec stF s fun r =>
    { r with service_state := service_state_t.stopped } with hG
  have hfeG : flags_exclusive stG t := by
    rw [hG]
    exact fe_of_pair_eq (pair_updRec_ne _ hts) hfeF
  set stH := if (getRec stC s).restarting = true ∧ (getRec stC s).required_by > 0 then
      start (updRec stG s fun r => { r with restarting := true }) s false
    else
      if (getRec stG s).start_explicit = true then
        release (updRec stG s fun r => { r with start_explicit := false }) s true
      else
        if (getRec stG s).required_by = 0 then
          service_inactive (add_prop_queue (updRec stG s fun r =>
            { r with prop_release := !r.prop_require, prop_require := false }) s) s
        else stG with hH
  have hfeH : flags_exclusive stH t := by
    rw [hH]
    split
    · refine fe_start _ _ _ _ ?_
      exact fe_of_pair_eq (pair_updRec_ne _ hts) hfeG
    · split
      · refine fe_of_pair_eq ?_ hfeG
        rw [pair_release_ne _ _ _ _ hts, pair_updRec_ne _ hts]
      · split
        · refine fe_of_pair_eq ?_ hfeG
          have hq : ∀ X : sset, prop_pair (service_inactive (add_prop_queue X s) s) t =
              prop_pair X t := fun _ => rfl
          rw [hq, pair_updRec_ne _ hts]
        · exact hfeG
  split
  · split
    · split
      · exact fe_start _ _ _ _ hfeH
      · exact hfeH
    · exact hfeH
  · exact hfeH

theorem fe_release (st : sset) (u : Nat) (b : Bool) (t : Nat)
    (hfe : flags_exclusive st t) : flags_exclusive (release st u b) t := by
  by_cases h : t = u
  · subst h
    exact fe_release_self _ _ _ hfe
  · exact fe_of_pair_eq (pair_release_ne _ _ _ _ h) hfe

theorem fe_stopped_all (st : sset) (u t : Nat) (hfe : flags_exclusive st t) :
    flags_exclusive (stopped st u) t := by
  by_cases h : t = u
  · subst h
    exact fe_stopped _ _ hfe
  · exact fe_stopped_ne _ _ _ h hfe

/-- **C9.** The pending-propagation bits `prop_require` and `prop_release`
of every service record are mutually exclusive: each of `require`
(src/service.cc lines 133-143), `release` (lines 145-166) and `stopped`
(lines 44-107), applied to any service `u`, preserves the exclusion on
every record `t` (the operation that sets one of the two flags
simultaneously clears the other). -/
theorem C9_prop_flags_exclusive (st : sset) (u t : Nat) (b : Bool)
    (hfe : flags_exclusive st t) :
    flags_exclusive (require st u) t ∧ flags_exclusive (release st u b) t ∧
      flags_exclusive (stopped st u) t :=
  ⟨fe_require st u t hfe, fe_release st u b t hfe, fe_stopped_all st u t hfe⟩

/-- Witness for C9: the exclusion hypothesis holds in the two-service
configuration `init2` at record 0, and the theorem applies there. -/
theorem C9_prop_flags_exclusive_witness :
    flags_exclusive init2 0 ∧
      (flags_exclusive (require init2 1) 0 ∧ flags_exclusive (release init2 1 true) 0 ∧
        flags_exclusive (stopped init2 1) 0) :=
  ⟨by unfold flags_exclusive; decide,
    C9_prop_flags_exclusive init2 1 0 true (by unfold flags_exclusive; decide)⟩

end DinitModel
